import Mathlib

/-!
Shallow embedding of the monetization core of the tinselapp backend:
the balance ledger, the time-metered chat-session engine, content billing
(`src/monetization/monetization.service.ts`) and the escrow service-request
engine (`ServiceRequestService`).

Money and time are modelled as rationals (the source stores JavaScript
numbers; timestamps are milliseconds).  Prisma rows become Lean structures,
tables become lists or finite partial maps, and every service method becomes
a state-passing function.  A method that runs a `$transaction` and throws
returns the *unchanged* state together with the error (full rollback); a
method that commits writes and then throws (as `updateSessionActivity` does
on expiry) returns the mutated state together with the error.
-/

namespace Tinsel

abbrev UserId := Nat
abbrev Money := ℚ
abbrev Time := ℚ

/-- Errors thrown by the services (NestJS exception classes). -/
inductive Err where
  | badRequest (msg : String)
  | notFound (msg : String)
  | forbidden (msg : String)
  | internal (msg : String)
deriving DecidableEq, Repr

/-- Prisma `MessageType` enum. -/
inductive MessageType where
  | TEXT | IMAGE | FILE | VIDEO | AUDIO
deriving DecidableEq, Repr

/-- Prisma `ServiceType` enum. -/
inductive ServiceType where
  | CHAT | VIDEO | AUDIO
deriving DecidableEq, Repr

/-- Prisma `ServiceRequestStatus` enum. -/
inductive RequestStatus where
  | PENDING | ACCEPTED | REJECTED | EXPIRED | CANCELLED | COMPLETED
deriving DecidableEq, Repr

/-- Prisma `PendingBalanceStatus` enum. -/
inductive HoldStatus where
  | LOCKED | RELEASED | EXPIRED | REFUNDED
deriving DecidableEq, Repr

/-- Prisma `ServiceTransactionType` enum. -/
inductive TxType where
  | PAYMENT | EARNING | REFUND | LOCK | RELEASE
deriving DecidableEq, Repr

/-- Row of the `userBalance` table. -/
structure UserBalance where
  availableBalance : Money
  pendingBalance : Money
  totalEarnings : Money
  totalSpent : Money
deriving DecidableEq, Repr

/-- Row of the `chatTimeTier` table. -/
structure ChatTimeTier where
  durationMinutes : ℚ
  price : Money
  isActive : Bool
deriving DecidableEq, Repr

/-- Row of the `userMonetizationSettings` table, with its `chatTimeTiers`. -/
structure MonetizationSettings where
  isEnabled : Bool
  voiceNotePrice : Money
  imagePrice : Money
  videoPrice : Money
  monetizeVoiceNotes : Bool
  monetizeImages : Bool
  monetizeVideos : Bool
  chatTimeTiers : List ChatTimeTier
deriving DecidableEq, Repr

/-- Row of the `chatSession` table. -/
structure ChatSession where
  id : Nat
  buyerId : UserId
  sellerId : UserId
  durationMinutes : ℚ
  price : Money
  usedMinutes : ℚ
  isPaused : Bool
  isActive : Bool
  isCancelled : Bool
  isPaid : Bool
  startTime : Time
  endTime : Time
  pausedAt : Option Time
  resumedAt : Option Time
  lastActiveAt : Option Time
deriving DecidableEq, Repr

/-- `session.lastActiveAt || session.resumedAt || session.startTime`
(JavaScript null-coalescing on Date fields). -/
def ChatSession.lastActive (s : ChatSession) : Time :=
  s.lastActiveAt.getD (s.resumedAt.getD s.startTime)

/-- Row of the `serviceRequest` table. -/
structure ServiceRequest where
  id : Nat
  requesterId : UserId
  providerId : UserId
  serviceType : ServiceType
  duration : ℚ
  price : Money
  status : RequestStatus
  createdAt : Time
  respondedAt : Option Time
deriving DecidableEq, Repr

/-- Row of the `pendingBalance` table (an escrow hold). -/
structure PendingHold where
  id : Nat
  userId : UserId
  amount : Money
  status : HoldStatus
  sourceId : Nat
  releasedAt : Option Time
deriving DecidableEq, Repr

/-- Row of the `serviceTransaction` table (the ledger). -/
structure ServiceTransaction where
  userId : UserId
  requestId : Nat
  transactionType : TxType
  amount : Money
  previousBalance : Money
  newBalance : Money
deriving DecidableEq, Repr

/-- Row of the `contentCharge` table. -/
structure ContentCharge where
  messageId : Nat
  sessionId : Nat
  senderId : UserId
  recipientId : UserId
  contentType : MessageType
  basePrice : Money
  units : ℚ
  totalAmount : Money
  isPaid : Bool
deriving DecidableEq, Repr

/-- Row of the `serviceSession` table. -/
structure ServiceSession where
  requestId : Nat
  requesterId : UserId
  providerId : UserId
  serviceType : ServiceType
  duration : ℚ
  price : Money
  startTime : Time
  endTime : Time
  isPaid : Bool
deriving DecidableEq, Repr

/-- Row of the `serviceNotification` table (only the routing fields). -/
structure ServiceNotification where
  userId : UserId
  requestId : Nat
deriving DecidableEq, Repr

/-- The persistent store: every table the monetization core touches. -/
structure MState where
  balances : UserId → Option UserBalance
  settings : UserId → Option MonetizationSettings
  sessions : List ChatSession
  requests : List ServiceRequest
  holds : List PendingHold
  charges : List ContentCharge
  transactions : List ServiceTransaction
  serviceSessions : List ServiceSession
  notifications : List ServiceNotification
  nextId : Nat

/-- Prisma `userBalance.update`: fails (P2025) when the row is absent. -/
def updBal (bals : UserId → Option UserBalance) (u : UserId)
    (f : UserBalance → UserBalance) : Option (UserId → Option UserBalance) :=
  match bals u with
  | none => none
  | some b => some (fun v => if v = u then some (f b) else bals v)

/-- Prisma `userBalance.upsert`. -/
def upsertBal (bals : UserId → Option UserBalance) (u : UserId)
    (f : UserBalance → UserBalance) (c : UserBalance) :
    UserId → Option UserBalance :=
  fun v =>
    if v = u then
      match bals u with
      | some b => some (f b)
      | none => some c
    else bals v

/-- Prisma `chatSession.update where id`. -/
def setSession (sessions : List ChatSession) (s : ChatSession) :
    List ChatSession :=
  sessions.map (fun t => if t.id = s.id then s else t)

/-- Prisma `chatSession.findUnique where id`. -/
def findSession (sessions : List ChatSession) (sid : Nat) :
    Option ChatSession :=
  sessions.find? (fun s => s.id = sid)

/-- Prisma `serviceRequest.update where id`. -/
def setRequest (requests : List ServiceRequest) (r : ServiceRequest) :
    List ServiceRequest :=
  requests.map (fun t => if t.id = r.id then r else t)

/-- Prisma `serviceRequest.findUnique where id`. -/
def findRequest (requests : List ServiceRequest) (rid : Nat) :
    Option ServiceRequest :=
  requests.find? (fun r => r.id = rid)

/-- Prisma `pendingBalance.update where id`. -/
def setHold (holds : List PendingHold) (h : PendingHold) : List PendingHold :=
  holds.map (fun t => if t.id = h.id then h else t)

/-- `pendingBalance.findFirst where userId, sourceId, status LOCKED`. -/
def findLockedHold (holds : List PendingHold) (u : UserId) (sid : Nat) :
    Option PendingHold :=
  holds.find? (fun h => h.userId = u && h.sourceId = sid
    && h.status = HoldStatus.LOCKED)

/-! ## SessionEngine (`MonetizationService`) -/

/-- `purchaseChatTime(buyerId, dto)`.  Settings lookup, tier lookup,
conflicting-session guard, balance guard, then one transaction: debit the
buyer, credit (upsert) the seller, create the session paused with
`endTime = startTime` and `usedMinutes = 0`. -/
def purchaseChatTime (st : MState) (buyerId sellerId : UserId)
    (durationMinutes : ℚ) (now : Time) : MState × Except Err ChatSession :=
  match st.settings sellerId with
  | none => (st, .error (.badRequest "This user does not have monetization enabled"))
  | some settings =>
    if !settings.isEnabled then
      (st, .error (.badRequest "This user does not have monetization enabled"))
    else
      match settings.chatTimeTiers.find?
          (fun t => t.durationMinutes = durationMinutes && t.isActive) with
      | none => (st, .error (.badRequest "No pricing tier found"))
      | some tier =>
        let existing := st.sessions.find? (fun s =>
          s.buyerId = buyerId && s.sellerId = sellerId
          && s.isActive && !s.isCancelled)
        if existing.any (fun es =>
            decide (es.usedMinutes < es.durationMinutes)) then
          (st, .error (.badRequest "You already have an active session"))
        else
          match st.balances buyerId with
          | none => (st, .error (.badRequest "Insufficient balance"))
          | some buyerBalance =>
            if buyerBalance.availableBalance < tier.price then
              (st, .error (.badRequest "Insufficient balance"))
            else
              let bals1 := fun v => if v = buyerId then
                  some { buyerBalance with
                    availableBalance := buyerBalance.availableBalance - tier.price
                    totalSpent := buyerBalance.totalSpent + tier.price }
                else st.balances v
              let bals2 := upsertBal bals1 sellerId
                (fun b => { b with
                  availableBalance := b.availableBalance + tier.price
                  totalEarnings := b.totalEarnings + tier.price })
                { availableBalance := tier.price, pendingBalance := 0
                  totalEarnings := tier.price, totalSpent := 0 }
              let session : ChatSession :=
                { id := st.nextId, buyerId := buyerId, sellerId := sellerId
                  durationMinutes := tier.durationMinutes, price := tier.price
                  usedMinutes := 0, isPaused := true, isActive := true
                  isCancelled := false, isPaid := true
                  startTime := now, endTime := now
                  pausedAt := none, resumedAt := none, lastActiveAt := none }
              ({ st with balances := bals2,
                         sessions := st.sessions ++ [session],
                         nextId := st.nextId + 1 },
               .ok session)

/-- `activateSession(sessionId)`: requires an active, non-cancelled session
with remaining time; clears the pause and restarts the wall clock
(`endTime = now + remaining`). -/
def activateSession (st : MState) (sid : Nat) (now : Time) :
    MState × Except Err ChatSession :=
  match findSession st.sessions sid with
  | none => (st, .error (.notFound "Session not found"))
  | some s =>
    if !s.isActive || s.isCancelled then
      (st, .error (.badRequest "Session is not available"))
    else
      let remainingMinutes := s.durationMinutes - s.usedMinutes
      if remainingMinutes ≤ 0 then
        (st, .error (.badRequest "Session time has been fully used"))
      else
        let s2 := { s with isPaused := false, resumedAt := some now
                           lastActiveAt := some now
                           endTime := now + remainingMinutes * 60 * 1000 }
        ({ st with sessions := setSession st.sessions s2 }, .ok s2)

/-- `pauseSession(sessionId, userId)`: participant check, not-paused check,
then `usedMinutes += max(0, (now - lastActive)/60000)`. -/
def pauseSession (st : MState) (sid : Nat) (userId : UserId) (now : Time) :
    MState × Except Err ChatSession :=
  match findSession st.sessions sid with
  | none => (st, .error (.notFound "Session not found"))
  | some s =>
    if s.buyerId ≠ userId ∧ s.sellerId ≠ userId then
      (st, .error (.forbidden "You are not part of this chat session"))
    else if s.isPaused then
      (st, .error (.badRequest "Session is already paused"))
    else
      let minutesUsed := max 0 ((now - s.lastActive) / 60000)
      let totalUsed := s.usedMinutes + minutesUsed
      let s2 := { s with isPaused := true, pausedAt := some now
                         usedMinutes := totalUsed }
      ({ st with sessions := setSession st.sessions s2 }, .ok s2)

/-- The expiry write shared by `updateSessionActivity` and
`getActiveSession`: add `min(remaining, (endTime - lastActive)/60000)` to
`usedMinutes`, deactivate and pause. -/
def finalizeExpired (s : ChatSession) : ChatSession :=
  let minutesUsed := min (s.durationMinutes - s.usedMinutes)
    ((s.endTime - s.lastActive) / 60000)
  { s with isActive := false, usedMinutes := s.usedMinutes + minutesUsed
           isPaused := true }

/-- `updateSessionActivity(sessionId)`: paused sessions are re-activated;
expired sessions are finalized (the write commits and *then* the method
throws); running sessions get `lastActiveAt = now`. -/
def updateSessionActivity (st : MState) (sid : Nat) (now : Time) :
    MState × Except Err ChatSession :=
  match findSession st.sessions sid with
  | none => (st, .error (.notFound "Session not found"))
  | some s =>
    if s.isPaused then
      activateSession st sid now
    else if s.endTime < now then
      ({ st with sessions := setSession st.sessions (finalizeExpired s) },
       .error (.badRequest "Session time has expired"))
    else
      let s2 := { s with lastActiveAt := some now }
      ({ st with sessions := setSession st.sessions s2 }, .ok s2)

/-- `getActiveSession(userId1, userId2)`: first active, non-cancelled
session between the two users; a running session past its deadline is
finalized on the spot and reported as absent. -/
def getActiveSession (st : MState) (u1 u2 : UserId) (now : Time) :
    MState × Option ChatSession :=
  let sess := st.sessions.find? (fun s =>
    ((s.buyerId = u1 && s.sellerId = u2) || (s.buyerId = u2 && s.sellerId = u1))
    && s.isActive && !s.isCancelled)
  match sess with
  | none => (st, none)
  | some s =>
    if !s.isPaused && s.endTime < now then
      ({ st with sessions := setSession st.sessions (finalizeExpired s) }, none)
    else
      (st, some s)

/-- `autoPauseInactiveSessions(inactivityMinutes = 5)`: pause every running
session whose `lastActiveAt` predates the cutoff, adding the uncapped
elapsed `(now - lastActive)/60000` to `usedMinutes`. -/
def autoPauseInactiveSessions (st : MState) (inactivityMinutes : ℚ)
    (now : Time) : MState :=
  let cutoffTime := now - inactivityMinutes * 60 * 1000
  let inactive := st.sessions.filter (fun s =>
    s.isActive && !s.isPaused &&
    (match s.lastActiveAt with
     | some t => decide (t < cutoffTime)
     | none => false))
  let step := fun (ss : List ChatSession) (s : ChatSession) =>
    let minutesUsed := (now - s.lastActive) / 60000
    setSession ss { s with isPaused := true, pausedAt := some now,
                           usedMinutes := s.usedMinutes + minutesUsed }
  { st with sessions := inactive.foldl step st.sessions }

/-- The per-session update `autoPauseInactiveSessions` applies: paused at
`now` with the raw, uncapped `(now - lastActive)/60000` added to
`usedMinutes`. -/
def autoPauseStep (now : Time) (s : ChatSession) : ChatSession :=
  { s with isPaused := true, pausedAt := some now,
           usedMinutes := s.usedMinutes + (now - s.lastActive) / 60000 }

/-- One `setSession` write of the auto-pause loop, seen from a single
list entry: replaced when the ids match, untouched otherwise. -/
def autoPauseRepl (now : Time) (u sk : ChatSession) : ChatSession :=
  if u.id = sk.id then autoPauseStep now sk else u

/-- The summary `cancelSession` returns. -/
structure CancelResult where
  refundAmount : ℚ
  usedMinutes : ℚ
  remainingMinutes : ℚ
deriving DecidableEq, Repr

/-- JavaScript `Math.round(x * 100) / 100` (display rounding). -/
def round2 (x : ℚ) : ℚ := (⌊x * 100 + 1 / 2⌋ : ℚ) / 100

/-- The minutes `cancelSession` records: stored `usedMinutes` plus, for a
running session, the raw `(now - lastActive)/60000` (no `max 0`, unlike
`pauseSession`). -/
def cancelTotalUsed (s : ChatSession) (now : Time) : ℚ :=
  s.usedMinutes + (if !s.isPaused then (now - s.lastActive) / 60000 else 0)

/-- The refund `cancelSession` computes:
`price / durationMinutes * max(0, durationMinutes - totalUsed)`. -/
def cancelRefund (s : ChatSession) (now : Time) : ℚ :=
  s.price / s.durationMinutes * max 0 (s.durationMinutes - cancelTotalUsed s now)

/-- `cancelSession(sessionId, userId)`: participant and active checks;
elapsed time added (uncapped, no `max 0`) when running; refund
`price / durationMinutes * max(0, durationMinutes - totalUsed)` moved from
seller to buyer inside one transaction that also cancels the session.
Neither balance update checks sufficiency, and both are `update`s that
fail when the row is absent (rolling the transaction back). -/
def cancelSession (st : MState) (sid : Nat) (userId : UserId) (now : Time) :
    MState × Except Err CancelResult :=
  match findSession st.sessions sid with
  | none => (st, .error (.notFound "Session not found"))
  | some s =>
    if s.buyerId ≠ userId ∧ s.sellerId ≠ userId then
      (st, .error (.forbidden "You are not part of this chat session"))
    else if !s.isActive then
      (st, .error (.badRequest "Session is not active"))
    else
      let totalUsed := cancelTotalUsed s now
      let remainingMinutes := max 0 (s.durationMinutes - totalUsed)
      let refundAmount := cancelRefund s now
      let s2 := { s with isActive := false, isCancelled := true
                         usedMinutes := totalUsed, isPaused := true
                         pausedAt := some now }
      let sessions2 := setSession st.sessions s2
      if refundAmount > 0 then
        match updBal st.balances s.buyerId (fun b => { b with
            availableBalance := b.availableBalance + refundAmount
            totalSpent := b.totalSpent - refundAmount }) with
        | none => (st, .error (.internal "Failed to cancel session"))
        | some bals1 =>
          match updBal bals1 s.sellerId (fun b => { b with
              availableBalance := b.availableBalance - refundAmount
              totalEarnings := b.totalEarnings - refundAmount }) with
          | none => (st, .error (.internal "Failed to cancel session"))
          | some bals2 =>
            ({ st with sessions := sessions2, balances := bals2 },
             .ok { refundAmount := round2 refundAmount
                   usedMinutes := round2 totalUsed
                   remainingMinutes := round2 remainingMinutes })
      else
        ({ st with sessions := sessions2 },
         .ok { refundAmount := round2 refundAmount
               usedMinutes := round2 totalUsed
               remainingMinutes := round2 remainingMinutes })

/-! ## ContentBilling (`MonetizationService`) -/

/-- One per-item cost quote inside a `ContentCostCalculation`. -/
structure AdditionalCost where
  contentType : MessageType
  basePrice : Money
  units : ℚ
  totalCost : Money
deriving DecidableEq, Repr

/-- Return value of `canSendMessage`. -/
structure ContentCostCalculation where
  sessionRequired : Bool
  sessionCost : Option (List (ℚ × Money))
  additionalCost : Option AdditionalCost
deriving DecidableEq, Repr

/-- JavaScript `!durationSeconds`: true for `undefined` and for `0`. -/
def durFalsy (d : Option ℚ) : Bool := d.getD 0 = 0

/-- The tier menu `canSendMessage` returns (active tiers only, as fetched). -/
def tierMenu (settings : MonetizationSettings) : List (ℚ × Money) :=
  (settings.chatTimeTiers.filter (fun t => t.isActive)).map
    (fun t => (t.durationMinutes, t.price))

/-- `canSendMessage(senderId, recipientId, contentType, durationSeconds?)`:
free when the recipient is not monetized; otherwise requires an active
session *before* looking at the content type (so even TEXT gets the
session-required menu); with a session, quotes the per-item cost for
monetized AUDIO / IMAGE / VIDEO and pre-checks the sender's balance
without mutating it.  The embedded `getActiveSession` call may finalize an
expired session, so the state is returned too. -/
def canSendMessage (st : MState) (senderId recipientId : UserId)
    (contentType : MessageType) (durationSeconds : Option ℚ) (now : Time) :
    MState × Except Err ContentCostCalculation :=
  match st.settings recipientId with
  | none => (st, .ok { sessionRequired := false, sessionCost := none
                       additionalCost := none })
  | some settings =>
    if !settings.isEnabled then
      (st, .ok { sessionRequired := false, sessionCost := none
                 additionalCost := none })
    else
      let res := getActiveSession st senderId recipientId now
      let st1 := res.1
      let quote : Except Err (Option AdditionalCost) :=
        if contentType = MessageType.AUDIO && settings.monetizeVoiceNotes then
          if durFalsy durationSeconds then
            .error (.badRequest "Duration is required for voice notes")
          else
            let d := durationSeconds.getD 0
            .ok (some { contentType := contentType
                        basePrice := settings.voiceNotePrice, units := d
                        totalCost := settings.voiceNotePrice * d })
        else if contentType = MessageType.IMAGE && settings.monetizeImages then
          .ok (some { contentType := contentType
                      basePrice := settings.imagePrice, units := 1
                      totalCost := settings.imagePrice })
        else if contentType = MessageType.VIDEO && settings.monetizeVideos then
          if durFalsy durationSeconds then
            .error (.badRequest "Duration is required for videos")
          else
            let d := durationSeconds.getD 0
            .ok (some { contentType := contentType
                        basePrice := settings.videoPrice, units := d
                        totalCost := settings.videoPrice * d })
        else
          .ok none
      match res.2 with
      | none =>
        (st1, .ok { sessionRequired := true
                    sessionCost := some (tierMenu settings)
                    additionalCost := none })
      | some session =>
        if session.buyerId ≠ senderId then
          (st1, .ok { sessionRequired := true
                      sessionCost := some (tierMenu settings)
                      additionalCost := none })
        else
          match quote with
          | .error e => (st1, .error e)
          | .ok none =>
            (st1, .ok { sessionRequired := false, sessionCost := none
                        additionalCost := none })
          | .ok (some cost) =>
            match st1.balances senderId with
            | none => (st1, .error (.badRequest "Insufficient balance"))
            | some senderBalance =>
              if senderBalance.availableBalance < cost.totalCost then
                (st1, .error (.badRequest "Insufficient balance"))
              else
                (st1, .ok { sessionRequired := false, sessionCost := none
                            additionalCost := some cost })

/-- `createContentCharge(messageId, sessionId, senderId, recipientId,
contentType, durationSeconds?)`: returns `null` when the recipient is not
monetized, for TEXT, and for types the recipient does not monetize;
otherwise one transaction debits the sender (after a sufficiency check),
credits (upserts) the recipient, and inserts the `ContentCharge` row.  The
unique constraint `content_charges_messageId_key` makes the insert fail on
a duplicate `messageId`; the whole transaction rolls back and the service
rethrows an internal error — there is no code path returning the existing
row.  The `basePrice / units / totalAmount` resolution is split out below
as `chargeAmounts` (TEXT and non-monetized types yield `null`). -/
def chargeAmounts (settings : MonetizationSettings)
    (contentType : MessageType) (durationSeconds : Option ℚ) :
    Except Err (Option (Money × ℚ × Money)) :=
  if contentType = MessageType.TEXT then .ok none
  else if contentType = MessageType.AUDIO
      && settings.monetizeVoiceNotes then
    if durFalsy durationSeconds then
      .error (.badRequest "Duration required for voice notes")
    else
      let d := durationSeconds.getD 0
      .ok (some (settings.voiceNotePrice, d, settings.voiceNotePrice * d))
  else if contentType = MessageType.IMAGE
      && settings.monetizeImages then
    .ok (some (settings.imagePrice, 1, settings.imagePrice))
  else if contentType = MessageType.VIDEO
      && settings.monetizeVideos then
    if durFalsy durationSeconds then
      .error (.badRequest "Duration required for videos")
    else
      let d := durationSeconds.getD 0
      .ok (some (settings.videoPrice, d, settings.videoPrice * d))
  else .ok none

def createContentCharge (st : MState) (messageId sessionId : Nat)
    (senderId recipientId : UserId) (contentType : MessageType)
    (durationSeconds : Option ℚ) : MState × Except Err (Option ContentCharge) :=
  match st.settings recipientId with
  | none => (st, .ok none)
  | some settings =>
    if !settings.isEnabled then (st, .ok none)
    else
      match chargeAmounts settings contentType durationSeconds with
      | .error e => (st, .error e)
      | .ok none => (st, .ok none)
      | .ok (some (basePrice, units, totalAmount)) =>
        match st.balances senderId with
        | none => (st, .error (.badRequest "Insufficient balance"))
        | some senderBalance =>
          if senderBalance.availableBalance < totalAmount then
            (st, .error (.badRequest "Insufficient balance"))
          else if st.charges.any (fun c => c.messageId = messageId) then
            (st, .error (.internal "Failed to process content charge"))
          else
            let bals1 := fun v => if v = senderId then
                some { senderBalance with
                  availableBalance := senderBalance.availableBalance - totalAmount
                  totalSpent := senderBalance.totalSpent + totalAmount }
              else st.balances v
            let bals2 := upsertBal bals1 recipientId
              (fun b => { b with
                availableBalance := b.availableBalance + totalAmount
                totalEarnings := b.totalEarnings + totalAmount })
              { availableBalance := totalAmount, pendingBalance := 0
                totalEarnings := totalAmount, totalSpent := 0 }
            let charge : ContentCharge :=
              { messageId := messageId, sessionId := sessionId
                senderId := senderId, recipientId := recipientId
                contentType := contentType, basePrice := basePrice
                units := units, totalAmount := totalAmount, isPaid := true }
            ({ st with balances := bals2,
                       charges := st.charges ++ [charge] },
             .ok (some charge))

/-! ## EscrowRequestEngine (`ServiceRequestService`) -/

/-- `EXPIRATION_DAYS = 7` converted to milliseconds
(`weekAgo.setDate(weekAgo.getDate() - 7)` on a UTC clock). -/
def expirationMs : ℚ := 7 * 86400000

/-- Arguments of `createServiceRequest` (`CreateServiceRequestDto`). -/
structure CreateServiceRequestDto where
  providerId : UserId
  serviceType : ServiceType
  duration : ℚ
deriving DecidableEq, Repr

/-- Price resolution in `createServiceRequest`: CHAT uses the active tier
matching `duration`; VIDEO uses `videoPrice`; otherwise, for AUDIO, the
`voiceNotePrice` (the dead `IMAGE` arm of the source conditional is
unreachable: `ServiceType` has no IMAGE member). -/
def resolveRequestPrice (settings : MonetizationSettings)
    (serviceType : ServiceType) (duration : ℚ) : Except Err Money :=
  match serviceType with
  | .CHAT =>
    match settings.chatTimeTiers.find?
        (fun t => t.durationMinutes = duration && t.isActive) with
    | none => .error (.badRequest "No pricing for this duration")
    | some tier => .ok tier.price
  | .VIDEO => .ok settings.videoPrice
  | ServiceType.AUDIO => .ok settings.voiceNotePrice

/-- `createServiceRequest(requesterId, dto)`: self-request guard, provider
settings guard, price resolution, requester balance guard; then one
transaction creates the PENDING request, the LOCKED hold, moves the price
from available to pending, and records a LOCK `serviceTransaction` whose
`previousBalance`/`newBalance` are the requester availableBalance before
and after the lock. -/
def createServiceRequest (st : MState) (requesterId : UserId)
    (dto : CreateServiceRequestDto) (now : Time) :
    MState × Except Err ServiceRequest :=
  if requesterId = dto.providerId then
    (st, .error (.badRequest "Cannot request service from yourself"))
  else
    match st.settings dto.providerId with
    | none => (st, .error (.badRequest "Service provider not available"))
    | some providerSettings =>
      if !providerSettings.isEnabled then
        (st, .error (.badRequest "Service provider not available"))
      else
        match resolveRequestPrice providerSettings dto.serviceType
            dto.duration with
        | .error e => (st, .error e)
        | .ok price =>
          match st.balances requesterId with
          | none => (st, .error (.badRequest "Insufficient balance"))
          | some requesterBalance =>
            if requesterBalance.availableBalance < price then
              (st, .error (.badRequest "Insufficient balance"))
            else
              let request : ServiceRequest :=
                { id := st.nextId, requesterId := requesterId
                  providerId := dto.providerId
                  serviceType := dto.serviceType, duration := dto.duration
                  price := price, status := RequestStatus.PENDING
                  createdAt := now, respondedAt := none }
              let hold : PendingHold :=
                { id := st.nextId + 1, userId := requesterId, amount := price
                  status := HoldStatus.LOCKED, sourceId := request.id
                  releasedAt := none }
              let bals1 := fun v => if v = requesterId then
                  some { requesterBalance with
                    availableBalance := requesterBalance.availableBalance - price
                    pendingBalance := requesterBalance.pendingBalance + price }
                else st.balances v
              let entry : ServiceTransaction :=
                { userId := requesterId, requestId := request.id
                  transactionType := TxType.LOCK, amount := price
                  previousBalance := requesterBalance.availableBalance
                  newBalance := requesterBalance.availableBalance - price }
              let note : ServiceNotification :=
                { userId := dto.providerId, requestId := request.id }
              ({ st with requests := st.requests ++ [request],
                         holds := st.holds ++ [hold],
                         balances := bals1,
                         transactions := st.transactions ++ [entry],
                         notifications := st.notifications ++ [note],
                         nextId := st.nextId + 2 },
               .ok request)

/-- `acceptRequest(request)` (private, called with a PENDING request):
one transaction sets the request ACCEPTED, releases the LOCKED hold,
drops the price from the requester pendingBalance (availableBalance
untouched), records a PAYMENT entry whose previous and new balance are
both the requester availableBalance, credits (upserts) the provider,
records an EARNING entry, and creates the paid `ServiceSession` running
from `now` to `now + duration` minutes. -/
def acceptRequest (st : MState) (r : ServiceRequest) (now : Time) :
    MState × Except Err ServiceSession :=
  let r2 := { r with status := RequestStatus.ACCEPTED
                     respondedAt := some now }
  let requests2 := setRequest st.requests r2
  let mkSession : ServiceSession :=
    { requestId := r.id, requesterId := r.requesterId
      providerId := r.providerId, serviceType := r.serviceType
      duration := r.duration, price := r.price
      startTime := now, endTime := now + r.duration * 60000, isPaid := true }
  let notes : List ServiceNotification :=
    [{ userId := r.requesterId, requestId := r.id },
     { userId := r.providerId, requestId := r.id }]
  match findLockedHold st.holds r.requesterId r.id with
  | none =>
    ({ st with requests := requests2,
               serviceSessions := st.serviceSessions ++ [mkSession],
               notifications := st.notifications ++ notes },
     .ok mkSession)
  | some hold =>
    let holds2 := setHold st.holds
      { hold with status := HoldStatus.RELEASED, releasedAt := some now }
    match st.balances r.requesterId with
    | none => (st, .error (.badRequest "Failed to process response"))
    | some requesterBalance =>
      let bals1 := fun v => if v = r.requesterId then
          some { requesterBalance with
            pendingBalance := requesterBalance.pendingBalance - r.price }
        else st.balances v
      let payEntry : ServiceTransaction :=
        { userId := r.requesterId, requestId := r.id
          transactionType := TxType.PAYMENT, amount := r.price
          previousBalance := requesterBalance.availableBalance
          newBalance := requesterBalance.availableBalance }
      let providerPrev : Money :=
        match bals1 r.providerId with
        | some b => b.availableBalance
        | none => 0
      let bals2 := upsertBal bals1 r.providerId
        (fun b => { b with
          availableBalance := b.availableBalance + r.price
          totalEarnings := b.totalEarnings + r.price })
        { availableBalance := r.price, pendingBalance := 0
          totalEarnings := r.price, totalSpent := 0 }
      let providerNew : Money :=
        match bals2 r.providerId with
        | some b => b.availableBalance
        | none => 0
      let earnEntry : ServiceTransaction :=
        { userId := r.providerId, requestId := r.id
          transactionType := TxType.EARNING, amount := r.price
          previousBalance := providerPrev, newBalance := providerNew }
      ({ st with requests := requests2,
                 holds := holds2,
                 balances := bals2,
                 transactions := st.transactions ++ [payEntry, earnEntry],
                 serviceSessions := st.serviceSessions ++ [mkSession],
                 notifications := st.notifications ++ notes },
       .ok mkSession)

/-- `rejectRequest(request)` (private, called with a PENDING request):
sets the request REJECTED, marks the hold REFUNDED, moves the price from
the requester pendingBalance back to availableBalance and records a
REFUND entry tracking the availableBalance before and after. -/
def rejectRequest (st : MState) (r : ServiceRequest) (now : Time) :
    MState × Except Err Unit :=
  let r2 := { r with status := RequestStatus.REJECTED
                     respondedAt := some now }
  let requests2 := setRequest st.requests r2
  let note : ServiceNotification := { userId := r.requesterId, requestId := r.id }
  match findLockedHold st.holds r.requesterId r.id with
  | none =>
    ({ st with requests := requests2,
               notifications := st.notifications ++ [note] },
     .ok ())
  | some hold =>
    let holds2 := setHold st.holds
      { hold with status := HoldStatus.REFUNDED, releasedAt := some now }
    match st.balances r.requesterId with
    | none => (st, .error (.badRequest "Failed to process response"))
    | some requesterBalance =>
      let bals1 := fun v => if v = r.requesterId then
          some { requesterBalance with
            availableBalance := requesterBalance.availableBalance + r.price
            pendingBalance := requesterBalance.pendingBalance - r.price }
        else st.balances v
      let entry : ServiceTransaction :=
        { userId := r.requesterId, requestId := r.id
          transactionType := TxType.REFUND, amount := r.price
          previousBalance := requesterBalance.availableBalance
          newBalance := requesterBalance.availableBalance + r.price }
      ({ st with requests := requests2,
                 holds := holds2,
                 balances := bals1,
                 transactions := st.transactions ++ [entry],
                 notifications := st.notifications ++ [note] },
       .ok ())

/-- The EXPIRED copy of a request that `expireRequest` writes. -/
def expiredVersion (r : ServiceRequest) (now : Time) : ServiceRequest :=
  { r with status := RequestStatus.EXPIRED, respondedAt := some now }

/-- `expireRequest(requestId)` (private): silent no-op unless the request
exists and is still PENDING; otherwise sets it EXPIRED, marks the hold
EXPIRED and refunds the pending amount with a REFUND entry, notifying
both parties.  A transaction failure (requester balance row missing while
a LOCKED hold exists) rolls everything back and the exception propagates
(the method has no try/catch). -/
def expireRequest (st : MState) (requestId : Nat) (now : Time) :
    MState × Except Err Unit :=
  match findRequest st.requests requestId with
  | none => (st, .ok ())
  | some r =>
    if r.status ≠ RequestStatus.PENDING then (st, .ok ())
    else
      let r2 := expiredVersion r now
      let requests2 := setRequest st.requests r2
      let notes : List ServiceNotification :=
        [{ userId := r.requesterId, requestId := requestId },
         { userId := r.providerId, requestId := requestId }]
      match findLockedHold st.holds r.requesterId requestId with
      | none =>
        ({ st with requests := requests2,
                   notifications := st.notifications ++ notes },
         .ok ())
      | some hold =>
        let holds2 := setHold st.holds
          { hold with status := HoldStatus.EXPIRED, releasedAt := some now }
        match st.balances r.requesterId with
        | none => (st, .error (.internal "Record to update not found"))
        | some requesterBalance =>
          let bals1 := fun v => if v = r.requesterId then
              some { requesterBalance with
                availableBalance := requesterBalance.availableBalance + r.price
                pendingBalance := requesterBalance.pendingBalance - r.price }
            else st.balances v
          let entry : ServiceTransaction :=
            { userId := r.requesterId, requestId := r.id
              transactionType := TxType.REFUND, amount := r.price
              previousBalance := requesterBalance.availableBalance
              newBalance := requesterBalance.availableBalance + r.price }
          ({ st with requests := requests2,
                     holds := holds2,
                     balances := bals1,
                     transactions := st.transactions ++ [entry],
                     notifications := st.notifications ++ notes },
           .ok ())

/-- `respondToRequest(providerId, requestId, dto)`: existence, caller and
PENDING guards; a request older than 7 days is force-expired and the call
fails; otherwise dispatches to accept or reject. -/
def respondToRequest (st : MState) (providerId : UserId) (requestId : Nat)
    (accept : Bool) (now : Time) : MState × Except Err (Option ServiceSession) :=
  match findRequest st.requests requestId with
  | none => (st, .error (.notFound "Service request not found"))
  | some r =>
    if r.providerId ≠ providerId then
      (st, .error (.forbidden "Not authorized"))
    else if r.status ≠ RequestStatus.PENDING then
      (st, .error (.badRequest "Request already processed"))
    else if r.createdAt < now - expirationMs then
      let res := expireRequest st requestId now
      (res.1,
       match res.2 with
       | .ok _ => .error (.badRequest "Request has expired")
       | .error e => .error e)
    else if accept then
      let res := acceptRequest st r now
      (res.1, res.2.map (fun s => some s))
    else
      let res := rejectRequest st r now
      (res.1, res.2.map (fun _ => none))

/-- `cancelRequest(requesterId, requestId)`: caller and PENDING guards;
sets the request CANCELLED, marks the hold REFUNDED and refunds the
pending amount with a REFUND entry. -/
def cancelRequest (st : MState) (requesterId : UserId) (requestId : Nat)
    (now : Time) : MState × Except Err Unit :=
  match findRequest st.requests requestId with
  | none => (st, .error (.notFound "Service request not found"))
  | some r =>
    if r.requesterId ≠ requesterId then
      (st, .error (.forbidden "Not authorized"))
    else if r.status ≠ RequestStatus.PENDING then
      (st, .error (.badRequest "Can only cancel pending requests"))
    else
      let r2 := { r with status := RequestStatus.CANCELLED
                         respondedAt := some now }
      let requests2 := setRequest st.requests r2
      let note : ServiceNotification :=
        { userId := r.providerId, requestId := requestId }
      match findLockedHold st.holds requesterId requestId with
      | none =>
        ({ st with requests := requests2,
                   notifications := st.notifications ++ [note] },
         .ok ())
      | some hold =>
        let holds2 := setHold st.holds
          { hold with status := HoldStatus.REFUNDED, releasedAt := some now }
        match st.balances requesterId with
        | none => (st, .error (.internal "Failed to cancel request"))
        | some requesterBalance =>
          let bals1 := fun v => if v = requesterId then
              some { requesterBalance with
                availableBalance := requesterBalance.availableBalance + r.price
                pendingBalance := requesterBalance.pendingBalance - r.price }
            else st.balances v
          let entry : ServiceTransaction :=
            { userId := requesterId, requestId := r.id
              transactionType := TxType.REFUND, amount := r.price
              previousBalance := requesterBalance.availableBalance
              newBalance := requesterBalance.availableBalance + r.price }
          ({ st with requests := requests2,
                     holds := holds2,
                     balances := bals1,
                     transactions := st.transactions ++ [entry],
                     notifications := st.notifications ++ [note] },
           .ok ())

/-- The sweep loop body: expire each listed request in order, stopping at
the first propagated exception (the loop has no per-item try/catch). -/
def runExpireAll (st : MState) (rids : List Nat) (now : Time) :
    MState × Except Err Unit :=
  match rids with
  | [] => (st, .ok ())
  | rid :: rest =>
    match expireRequest st rid now with
    | (st1, .ok _) => runExpireAll st1 rest now
    | (st1, .error e) => (st1, .error e)

/-- The sweep's selection: PENDING requests older than 7 days. -/
def staleFilter (now : Time) (l : List ServiceRequest) :
    List ServiceRequest :=
  l.filter (fun r =>
    r.status = RequestStatus.PENDING && r.createdAt < now - expirationMs)

/-- `autoExpireOldRequests()`: sweep every PENDING request older than
7 days and run `expireRequest` on each. -/
def autoExpireOldRequests (st : MState) (now : Time) :
    MState × Except Err Nat :=
  let oldRequests := staleFilter now st.requests
  let res := runExpireAll st (oldRequests.map (fun r => r.id)) now
  (res.1, res.2.map (fun _ => oldRequests.length))

/-! ## The core operations as a transition system -/

/-- One invocation of a core operation, with its arguments and the wall
clock at call time. -/
inductive Op where
  | purchase (buyerId sellerId : UserId) (durationMinutes : ℚ) (now : Time)
  | activate (sid : Nat) (now : Time)
  | pause (sid : Nat) (userId : UserId) (now : Time)
  | touch (sid : Nat) (now : Time)
  | cancel (sid : Nat) (userId : UserId) (now : Time)
  | autoPause (inactivityMinutes : ℚ) (now : Time)
  | charge (messageId sessionId : Nat) (senderId recipientId : UserId)
      (ct : MessageType) (dur : Option ℚ)
  | createReq (requesterId : UserId) (dto : CreateServiceRequestDto)
      (now : Time)
  | respond (providerId : UserId) (requestId : Nat) (accept : Bool)
      (now : Time)
  | cancelReq (requesterId : UserId) (requestId : Nat) (now : Time)
  | expire (requestId : Nat) (now : Time)
  | autoExpire (now : Time)

/-- The committed state after one operation: a throwing operation commits
whatever its semantics committed (for the transactional operations,
nothing). -/
def applyOp (st : MState) (op : Op) : MState :=
  match op with
  | .purchase b s d n => (purchaseChatTime st b s d n).1
  | .activate sid n => (activateSession st sid n).1
  | .pause sid u n => (pauseSession st sid u n).1
  | .touch sid n => (updateSessionActivity st sid n).1
  | .cancel sid u n => (cancelSession st sid u n).1
  | .autoPause i n => autoPauseInactiveSessions st i n
  | .charge m sid s r ct d => (createContentCharge st m sid s r ct d).1
  | .createReq u dto n => (createServiceRequest st u dto n).1
  | .respond p rid a n => (respondToRequest st p rid a n).1
  | .cancelReq u rid n => (cancelRequest st u rid n).1
  | .expire rid n => (expireRequest st rid n).1
  | .autoExpire n => (autoExpireOldRequests st n).1

/-- A finite run of core operations. -/
def applyOps (st : MState) (ops : List Op) : MState :=
  ops.foldl applyOp st

/-- Every stored balance row has non-negative available and pending. -/
def BalancesNonneg (bals : UserId → Option UserBalance) : Prop :=
  ∀ u b, bals u = some b →
    0 ≤ b.availableBalance ∧ 0 ≤ b.pendingBalance

/-- Every stored balance row has non-negative pending. -/
def PendingNonneg (bals : UserId → Option UserBalance) : Prop :=
  ∀ u b, bals u = some b → 0 ≤ b.pendingBalance

/-- The per-user total of LOCKED hold amounts. -/
def lockedSum (holds : List PendingHold) (u : UserId) : ℚ :=
  (holds.map (fun h =>
    if h.userId = u ∧ h.status = HoldStatus.LOCKED then h.amount else 0)).sum

/-- The escrow bookkeeping invariant reachable states satisfy: published
prices are non-negative, request prices and hold amounts are
non-negative, hold amounts match their request's price, request ids are
unique, and each user's pendingBalance covers their locked total. -/
structure EscrowWF (st : MState) : Prop where
  prices : ∀ u s, st.settings u = some s →
    0 ≤ s.voiceNotePrice ∧ 0 ≤ s.imagePrice ∧ 0 ≤ s.videoPrice ∧
    ∀ t ∈ s.chatTimeTiers, 0 ≤ t.price
  reqPrices : ∀ r ∈ st.requests, 0 ≤ r.price
  holdAmts : ∀ h ∈ st.holds, 0 ≤ h.amount
  holdMatch : ∀ h ∈ st.holds, ∀ r ∈ st.requests,
    h.sourceId = r.id → h.amount = r.price
  reqNodup : (st.requests.map (fun r => r.id)).Nodup
  holdCover : ∀ u b, st.balances u = some b →
    lockedSum st.holds u ≤ b.pendingBalance

/-- Whether an operation is a session cancellation. -/
def Op.isCancelSession : Op → Bool
  | .cancel _ _ _ => true
  | _ => false

/-- Content-charge operations are called with non-negative durations. -/
def Op.durNonneg : Op → Prop
  | .charge _ _ _ _ _ d => 0 ≤ d.getD 0
  | _ => True

/-! ## Concrete fixtures -/

/-- The empty store. -/
def emptyState : MState :=
  { balances := fun _ => none, settings := fun _ => none
    sessions := [], requests := [], holds := [], charges := []
    transactions := [], serviceSessions := [], notifications := []
    nextId := 0 }

/-- A 10-minutes-for-100 chat tier. -/
def tier10 : ChatTimeTier :=
  { durationMinutes := 10, price := 100, isActive := true }

/-- Monetization enabled with the single `tier10` chat tier. -/
def sellerSettings : MonetizationSettings :=
  { isEnabled := true, voiceNotePrice := 0, imagePrice := 0, videoPrice := 0
    monetizeVoiceNotes := false, monetizeImages := false
    monetizeVideos := false, chatTimeTiers := [tier10] }

/-- User 1 holds 100 available, user 2 holds 0; users 2 and 3 sell chat
time at `tier10`.  All balances are non-negative. -/
def c1Init : MState :=
  { emptyState with
    balances := fun u => if u = 1 then some ⟨100, 0, 0, 0⟩
      else if u = 2 then some ⟨0, 0, 0, 0⟩ else none
    settings := fun u => if u = 2 then some sellerSettings
      else if u = 3 then some sellerSettings else none }

/-- User 1 buys a session from user 2 (session id 0); user 2 spends the
proceeds on a session with user 3; user 1 immediately cancels session 0
for a full refund. -/
def c1Ops : List Op :=
  [Op.purchase 1 2 10 0, Op.purchase 2 3 10 0, Op.cancel 0 1 5000]

/-- A running 10-minute session used for the C5 witness. -/
def runningSession : ChatSession :=
  { id := 0, buyerId := 1, sellerId := 2, durationMinutes := 10
    price := 100, usedMinutes := 0, isPaused := false, isActive := true
    isCancelled := false, isPaid := true, startTime := 0, endTime := 600000
    pausedAt := none, resumedAt := some 0, lastActiveAt := some 0 }

/-- Store holding only `runningSession`. -/
def touchState : MState := { emptyState with sessions := [runningSession] }

/-- A paused, half-used 10-minute session (5 of 10 minutes consumed). -/
def cs3 : ChatSession :=
  { id := 0, buyerId := 1, sellerId := 2, durationMinutes := 10
    price := 100, usedMinutes := 5, isPaused := true, isActive := true
    isCancelled := false, isPaid := true, startTime := 0, endTime := 0
    pausedAt := some 300000, resumedAt := some 0, lastActiveAt := some 0 }

/-- Store for the C3 witness: the half-used session plus both balances. -/
def c3St : MState :=
  { emptyState with
    sessions := [cs3]
    balances := fun u => if u = 1 then some ⟨400, 0, 0, 100⟩
      else if u = 2 then some ⟨100, 0, 100, 0⟩ else none }

/-- Store for the C7 counterexample: user 2 is monetized (chat tiers
published), no session exists between users 1 and 2. -/
def c7St : MState :=
  { emptyState with
    settings := fun u => if u = 2 then some sellerSettings else none }

/-- Monetization settings charging 20 per image. -/
def imageSettings : MonetizationSettings :=
  { isEnabled := true, voiceNotePrice := 0, imagePrice := 20, videoPrice := 0
    monetizeVoiceNotes := false, monetizeImages := true
    monetizeVideos := false, chatTimeTiers := [] }

/-- Store for C2: recipient 2 charges 20 per image, sender 1 holds 100. -/
def c2St : MState :=
  { emptyState with
    settings := fun u => if u = 2 then some imageSettings else none
    balances := fun u => if u = 1 then some ⟨100, 0, 0, 0⟩ else none }

/-- The `ContentCharge` row the first C2 call inserts. -/
def c2Charge : ContentCharge :=
  { messageId := 5, sessionId := 0, senderId := 1, recipientId := 2
    contentType := MessageType.IMAGE, basePrice := 20, units := 1
    totalAmount := 20, isPaid := true }

/-- The store after the first successful C2 charge. -/
def c2St1 : MState := (createContentCharge c2St 5 0 1 2 MessageType.IMAGE none).1

/-- The `ServiceRequest` the C8 witness lock creates. -/
def c8Req : ServiceRequest :=
  { id := 0, requesterId := 1, providerId := 2
    serviceType := ServiceType.CHAT, duration := 10, price := 100
    status := RequestStatus.PENDING, createdAt := 0, respondedAt := none }

/-- Store after the C8 witness lock. -/
def c8St1 : MState :=
  (createServiceRequest c1Init 1
    { providerId := 2, serviceType := ServiceType.CHAT, duration := 10 } 0).1

/-- The LOCKED hold the witness lock creates (id 1, covering request 0). -/
def c6Hold : PendingHold :=
  { id := 1, userId := 1, amount := 100, status := HoldStatus.LOCKED
    sourceId := 0, releasedAt := none }

/-- C1 is false on the code: starting from non-negative balances, the run
purchase(1→2), purchase(2→3), cancelSession(session 0 by user 1) is a
sequence of core operations after which user 2 (the cancelled session's
seller) has availableBalance = −100 < 0.  `cancelSession` debits the
refund from the seller without any sufficiency check. -/
theorem c1_counterexample :
    (∀ u b, c1Init.balances u = some b →
      0 ≤ b.availableBalance ∧ 0 ≤ b.pendingBalance) ∧
    ∃ b, (applyOps c1Init c1Ops).balances 2 = some b ∧
      b.availableBalance < 0 := by
  constructor
  · intro u b h
    simp only [c1Init, emptyState] at h
    split_ifs at h <;> cases h <;> norm_num
  · refine ⟨⟨-100, 0, 0, 100⟩, ?_, by norm_num⟩
    norm_num [applyOps, applyOp, c1Ops, purchaseChatTime, cancelSession,
      cancelTotalUsed, cancelRefund, c1Init, emptyState, sellerSettings,
      tier10, upsertBal, updBal, List.find?, Option.any, List.foldl,
      findSession, setSession, ChatSession.lastActive, round2]

/-- C10: a self-request fails the very first guard of
`createServiceRequest`: the call returns the unchanged state with a
validation error, before price resolution, request/hold creation or any
balance movement. -/
theorem c10_self_request_rejected (st : MState) (requesterId : UserId)
    (dto : CreateServiceRequestDto) (now : Time)
    (hself : dto.providerId = requesterId) :
    createServiceRequest st requesterId dto now =
      (st, .error (.badRequest "Cannot request service from yourself")) := by
  simp [createServiceRequest, hself]

/-- Witness for C10 at a concrete self-request. -/
theorem c10_self_request_rejected_witness :
    createServiceRequest emptyState 1
        { providerId := 1, serviceType := ServiceType.CHAT, duration := 10 }
        0 =
      (emptyState, .error (.badRequest "Cannot request service from yourself")) :=
  c10_self_request_rejected emptyState 1
    { providerId := 1, serviceType := ServiceType.CHAT, duration := 10 } 0 rfl

/-- C5: `updateSessionActivity` on an existing session: paused sessions
are handed to `activateSession`; a running session past `endTime` is
finalized — `(endTime - lastActive)/60000` minutes capped at the
remaining `durationMinutes - usedMinutes` are added, it is paused and
deactivated — and the call fails with the session-expired error; an
in-time running session only gets `lastActiveAt = now`. -/
theorem c5_touch_behaviour (st : MState) (sid : Nat) (now : Time)
    (s : ChatSession) (hfind : findSession st.sessions sid = some s) :
    (s.isPaused = true →
      updateSessionActivity st sid now = activateSession st sid now) ∧
    (s.isPaused = false → s.endTime < now →
      updateSessionActivity st sid now =
        ({ st with sessions := setSession st.sessions { s with
              isActive := false, isPaused := true,
              usedMinutes := s.usedMinutes +
                min (s.durationMinutes - s.usedMinutes)
                  ((s.endTime - s.lastActive) / 60000) } },
         .error (.badRequest "Session time has expired"))) ∧
    (s.isPaused = false → ¬ s.endTime < now →
      updateSessionActivity st sid now =
        ({ st with sessions := setSession st.sessions { s with
              lastActiveAt := some now } },
         .ok { s with lastActiveAt := some now })) := by
  refine ⟨fun h1 => ?_, fun h1 h2 => ?_, fun h1 h2 => ?_⟩
  · simp [updateSessionActivity, hfind, h1]
  · simp [updateSessionActivity, hfind, h1, h2, finalizeExpired]
  · simp [updateSessionActivity, hfind, h1, h2]

/-- Witness for C5: touching the in-time running session at t = 300000
only refreshes `lastActiveAt`. -/
theorem c5_touch_behaviour_witness :
    updateSessionActivity touchState 0 300000 =
      ({ touchState with sessions := setSession touchState.sessions {
            runningSession with lastActiveAt := some 300000 } },
       .ok { runningSession with lastActiveAt := some 300000 }) :=
  (c5_touch_behaviour touchState 0 300000 runningSession rfl).2.2 rfl
    (by norm_num [runningSession])

/-- C3: for an active session and a participant caller, `cancelSession`
finalizes elapsed time with the same value `pauseSession` would record
(for a monotone clock the missing `max 0` is immaterial), cancels and
deactivates the session, and moves
`refund = price / durationMinutes * max 0 (durationMinutes - totalUsed)`
from the seller's availableBalance to the buyer's; using exactly half the
minutes refunds exactly half the price. -/
theorem c3_cancel_prorata (st : MState) (sid : Nat) (userId : UserId)
    (now : Time) (s : ChatSession) (bb sb : UserBalance)
    (hfind : findSession st.sessions sid = some s)
    (hpart : s.buyerId = userId ∨ s.sellerId = userId)
    (hactive : s.isActive = true)
    (hclock : s.lastActive ≤ now)
    (hdur : 0 < s.durationMinutes)
    (hprice : 0 ≤ s.price)
    (hne : s.buyerId ≠ s.sellerId)
    (hbb : st.balances s.buyerId = some bb)
    (hsb : st.balances s.sellerId = some sb) :
    cancelTotalUsed s now = s.usedMinutes +
      (if s.isPaused then 0 else max 0 ((now - s.lastActive) / 60000)) ∧
    (cancelSession st sid userId now).1.sessions =
      setSession st.sessions
        { s with isActive := false, isCancelled := true,
                 usedMinutes := cancelTotalUsed s now, isPaused := true,
                 pausedAt := some now } ∧
    (cancelSession st sid userId now).1.balances s.buyerId =
      some { bb with
        availableBalance := bb.availableBalance + cancelRefund s now,
        totalSpent := bb.totalSpent - cancelRefund s now } ∧
    (cancelSession st sid userId now).1.balances s.sellerId =
      some { sb with
        availableBalance := sb.availableBalance - cancelRefund s now,
        totalEarnings := sb.totalEarnings - cancelRefund s now } ∧
    (cancelTotalUsed s now = s.durationMinutes / 2 →
      cancelRefund s now = s.price / 2) := by
  have hrefund : 0 ≤ cancelRefund s now := by
    have h1 : 0 ≤ s.price / s.durationMinutes := by positivity
    have h2 : (0 : ℚ) ≤ max 0 (s.durationMinutes - cancelTotalUsed s now) :=
      le_max_left 0 _
    exact mul_nonneg h1 h2
  have hused : cancelTotalUsed s now = s.usedMinutes +
      (if s.isPaused then 0 else max 0 ((now - s.lastActive) / 60000)) := by
    unfold cancelTotalUsed
    cases hp : s.isPaused with
    | true => simp [hp]
    | false =>
      have : (0 : ℚ) ≤ (now - s.lastActive) / 60000 := by
        have := sub_nonneg.mpr hclock
        positivity
      simp [hp, max_eq_right this]
  have hhalf : cancelTotalUsed s now = s.durationMinutes / 2 →
      cancelRefund s now = s.price / 2 := by
    intro hh
    unfold cancelRefund
    rw [hh]
    have hrem : s.durationMinutes - s.durationMinutes / 2 =
        s.durationMinutes / 2 := by ring
    rw [hrem, max_eq_right (by positivity)]
    field_simp
  have hpartF : ¬ (s.buyerId ≠ userId ∧ s.sellerId ≠ userId) := by
    rcases hpart with h | h <;> simp [h]
  rcases lt_or_eq_of_le hrefund with hpos | hzero
  · refine ⟨hused, ?_, ?_, ?_, hhalf⟩ <;>
      simp [cancelSession, hfind, hpartF, hactive, hpos, updBal, hbb, hsb,
        hne, Ne.symm hne]
  · have hz : cancelRefund s now = 0 := hzero.symm
    refine ⟨hused, ?_, ?_, ?_, hhalf⟩ <;>
      simp [cancelSession, hfind, hpartF, hactive, hz, updBal, hbb, hsb,
        hne, Ne.symm hne]

/-- Witness for C3: cancelling the half-used session credits the buyer
with the refund, and that refund is exactly half the price (50). -/
theorem c3_cancel_prorata_witness :
    (cancelSession c3St 0 1 600000).1.balances 1 =
      some { availableBalance := 400 + cancelRefund cs3 600000,
             pendingBalance := 0, totalEarnings := 0,
             totalSpent := 100 - cancelRefund cs3 600000 } ∧
    cancelRefund cs3 600000 = 50 := by
  have h := c3_cancel_prorata c3St 0 1 600000 cs3 ⟨400, 0, 0, 100⟩
    ⟨100, 0, 100, 0⟩ rfl (Or.inl rfl) rfl
    (by norm_num [ChatSession.lastActive, cs3])
    (by norm_num [cs3]) (by norm_num [cs3]) (by norm_num [cs3])
    (by norm_num [c3St, cs3, emptyState]) (by norm_num [c3St, cs3, emptyState])
  refine ⟨h.2.2.1, ?_⟩
  have hh := h.2.2.2.2 (by norm_num [cancelTotalUsed, cs3])
  rw [hh]
  norm_num [cs3]

/-- C9 is false on the code: `pauseSession` adds the raw elapsed minutes
with no cap at the purchased duration.  Pausing the running 10-minute
session 20 minutes after its last activity records usedMinutes = 20 > 10,
and the session is then fully consumed (remaining ≤ 0). -/
theorem c9_counterexample :
    ∃ s, findSession (pauseSession touchState 0 1 1200000).1.sessions 0 =
        some s ∧
      s.durationMinutes < s.usedMinutes ∧
      s.durationMinutes - s.usedMinutes ≤ 0 := by
  refine ⟨{ runningSession with
            isPaused := true, pausedAt := some 1200000, usedMinutes := 20 },
          ?_, by norm_num [runningSession], by norm_num [runningSession]⟩
  norm_num [pauseSession, touchState, emptyState, findSession, setSession,
    List.find?, runningSession, ChatSession.lastActive]

/-- C7 is false on the code: `canSendMessage` checks the session before
ever looking at the content type, so a TEXT message to a monetized
recipient with no active session yields `sessionRequired = true` with the
tier menu. -/
theorem c7_counterexample :
    (canSendMessage c7St 1 2 MessageType.TEXT none 0).2 =
      .ok { sessionRequired := true, sessionCost := some [(10, 100)],
            additionalCost := none } := by
  norm_num [canSendMessage, c7St, emptyState, sellerSettings, tier10,
    getActiveSession, tierMenu, List.find?, List.filter]

/-- C7 amended: a TEXT message is never priced — `canSendMessage` never
attaches an `additionalCost` to TEXT (and never throws for it), and
`createContentCharge` is a strict no-op returning `null` for TEXT — but
when the recipient is monetized and the sender has no active session,
`canSendMessage` still answers `SessionRequired` for TEXT. -/
theorem c7_amended (st : MState) (sender recipient : UserId)
    (dur : Option ℚ) (now : Time) (messageId sessionId : Nat) :
    (∃ req menu,
      (canSendMessage st sender recipient MessageType.TEXT dur now).2 =
        .ok { sessionRequired := req, sessionCost := menu,
              additionalCost := none }) ∧
    createContentCharge st messageId sessionId sender recipient
        MessageType.TEXT dur = (st, .ok none) := by
  constructor
  · simp only [canSendMessage]
    split
    · exact ⟨false, none, rfl⟩
    case _ settings _ =>
      by_cases he : settings.isEnabled
      · simp only [he, Bool.not_true, Bool.false_eq_true, if_false]
        split
        · exact ⟨true, some (tierMenu settings), rfl⟩
        case _ session _ =>
          by_cases hb : session.buyerId = sender
          · simp only [hb, ne_eq, not_true_eq_false, if_false]
            simp
          · simp only [ne_eq, hb, not_false_eq_true, if_true]
            exact ⟨true, some (tierMenu settings), rfl⟩
      · simp only [he]
        exact ⟨false, none, rfl⟩
  · simp only [createContentCharge, chargeAmounts]
    split
    · rfl
    case _ settings _ =>
      by_cases he : settings.isEnabled <;> simp [he]

/-- C2 is false on the code as far as the retry behaviour goes: the
second call with the same `messageId` is *not* a no-op returning the
existing row — the duplicate insert aborts the transaction and the
service rethrows an internal error. -/
theorem c2_counterexample :
    (createContentCharge c2St 5 0 1 2 MessageType.IMAGE none).2 =
      .ok (some c2Charge) ∧
    (createContentCharge
        (createContentCharge c2St 5 0 1 2 MessageType.IMAGE none).1
        5 0 1 2 MessageType.IMAGE none).2 =
      .error (.internal "Failed to process content charge") := by
  constructor <;>
    norm_num [createContentCharge, chargeAmounts, c2St, emptyState,
      imageSettings, c2Charge, upsertBal, durFalsy, List.any,
      show MessageType.IMAGE ≠ MessageType.TEXT from by decide]

/-- C2 amended: after a successful charge for `messageId` (on a store
with no prior row for it) there is exactly one `ContentCharge` row for
that `messageId`, and the retried call leaves the store — balances
included — unchanged and fails (with the insufficient-balance error or
the internal duplicate-insert error) instead of returning the existing
row. -/
theorem c2_amended (st st1 : MState) (m sid : Nat) (s r : UserId)
    (ct : MessageType) (d : Option ℚ) (c : ContentCharge)
    (hfirst : createContentCharge st m sid s r ct d = (st1, .ok (some c)))
    (hnone : st.charges.filter (fun ch => ch.messageId = m) = []) :
    st1.charges.filter (fun ch => ch.messageId = m) = [c] ∧
    ∃ e, createContentCharge st1 m sid s r ct d = (st1, .error e) := by
  simp only [createContentCharge] at hfirst
  split at hfirst
  · simp at hfirst
  case _ settings hset =>
    split at hfirst
    · simp at hfirst
    case _ hen =>
      split at hfirst
      · simp at hfirst
      · simp at hfirst
      case _ bp u ta hamt =>
        split at hfirst
        · simp at hfirst
        case _ sb hsb =>
          split at hfirst
          · simp at hfirst
          case _ hsuff =>
            split at hfirst
            · simp at hfirst
            case _ hdup =>
              injection hfirst with h1 h2
              injection h2 with h2
              injection h2 with h2
              subst h1 h2
              constructor
              · simp [List.filter_append, hnone]
              · simp only [createContentCharge, hset, hen,
                  Bool.false_eq_true, if_false, hamt]
                split
                · exact ⟨.badRequest "Insufficient balance", rfl⟩
                case _ sb2 hsb2 =>
                  split
                  · exact ⟨.badRequest "Insufficient balance", rfl⟩
                  · have hany : (st.charges ++
                        [({ messageId := m, sessionId := sid, senderId := s,
                            recipientId := r, contentType := ct,
                            basePrice := bp, units := u, totalAmount := ta,
                            isPaid := true } : ContentCharge)]).any
                          (fun ch => ch.messageId = m) = true := by
                      simp
                    simp only [hany, if_true]
                    exact ⟨.internal "Failed to process content charge", rfl⟩

/-- Witness for C2 amended at the concrete image charge. -/
theorem c2_amended_witness :
    c2St1.charges.filter (fun ch => ch.messageId = 5) = [c2Charge] ∧
    ∃ e, createContentCharge c2St1 5 0 1 2 MessageType.IMAGE none =
      (c2St1, .error e) :=
  c2_amended c2St c2St1 5 0 1 2 MessageType.IMAGE none c2Charge
    (Prod.ext rfl (by
      norm_num [createContentCharge, chargeAmounts, c2St, emptyState,
        imageSettings, c2Charge, upsertBal, durFalsy,
        show MessageType.IMAGE ≠ MessageType.TEXT from by decide]))
    (by simp [c2St, emptyState])

/-- C8 is false on the code: a chat-time purchase changes the buyer's
`available + pending` sum (100 → 0) yet writes no ledger/transaction
entry at all — the transaction log is untouched. -/
theorem c8_counterexample :
    (purchaseChatTime c1Init 1 2 10 0).1.transactions = c1Init.transactions ∧
    ∃ b b1, c1Init.balances 1 = some b ∧
      (purchaseChatTime c1Init 1 2 10 0).1.balances 1 = some b1 ∧
      b1.availableBalance + b1.pendingBalance ≠
        b.availableBalance + b.pendingBalance := by
  refine ⟨?_, ⟨100, 0, 0, 0⟩, ⟨0, 0, 0, 100⟩, rfl, ?_, by norm_num⟩ <;>
    norm_num [purchaseChatTime, c1Init, emptyState, sellerSettings, tier10,
      upsertBal, List.find?, Option.any]

/-- C8 amended: chat-time purchase, content charges and session
cancellation write no transaction entry at all; `createServiceRequest`
writes one LOCK entry whose `newBalance − previousBalance` equals the
negated amount; a successful accept with a LOCKED hold writes a PAYMENT
entry for the requester recording `newBalance = previousBalance` (delta
0, not the amount) and an EARNING entry for the provider whose delta does
equal the amount. -/
theorem c8_amended :
    (∀ st b s d n,
      (purchaseChatTime st b s d n).1.transactions = st.transactions) ∧
    (∀ st m sid s r ct d,
      (createContentCharge st m sid s r ct d).1.transactions =
        st.transactions) ∧
    (∀ st sid u n,
      (cancelSession st sid u n).1.transactions = st.transactions) ∧
    (∀ st u dto n st2 req, createServiceRequest st u dto n = (st2, .ok req) →
      ∃ e : ServiceTransaction, st2.transactions = st.transactions ++ [e] ∧
        e.userId = u ∧ e.transactionType = TxType.LOCK ∧
        e.newBalance - e.previousBalance = -e.amount) ∧
    (∀ st r now st2 ss, acceptRequest st r now = (st2, .ok ss) →
      findLockedHold st.holds r.requesterId r.id ≠ none →
      ∃ pay earn : ServiceTransaction,
        st2.transactions = st.transactions ++ [pay, earn] ∧
        pay.userId = r.requesterId ∧ pay.amount = r.price ∧
        pay.newBalance = pay.previousBalance ∧
        earn.userId = r.providerId ∧ earn.amount = r.price ∧
        earn.newBalance - earn.previousBalance = earn.amount) := by
  refine ⟨?_, ?_, ?_, ?_, ?_⟩
  · intro st b s d n
    simp only [purchaseChatTime]
    repeat' split
    all_goals rfl
  · intro st m sid s r ct d
    simp only [createContentCharge]
    repeat' split
    all_goals rfl
  · intro st sid u n
    simp only [cancelSession]
    repeat' split
    all_goals rfl
  · intro st u dto n st2 req h
    simp only [createServiceRequest] at h
    split at h
    · simp at h
    split at h
    · simp at h
    case _ providerSettings hset =>
      split at h
      · simp at h
      case _ hen =>
        split at h
        · simp at h
        case _ price hprice =>
          split at h
          · simp at h
          case _ rb hrb =>
            split at h
            · simp at h
            case _ hsuff =>
              injection h with h1 h2
              subst h1
              refine ⟨{ userId := u, requestId := st.nextId,
                        transactionType := TxType.LOCK, amount := price,
                        previousBalance := rb.availableBalance,
                        newBalance := rb.availableBalance - price },
                      rfl, rfl, rfl, by ring⟩
  · intro st r now st2 ss h hhold
    simp only [acceptRequest] at h
    split at h
    · simp_all
    case _ hold hfound =>
      split at h
      · simp at h
      case _ rb hrb =>
        injection h with h1 h2
        subst h1
        rcases hpb : (fun v => if v = r.requesterId then
            some { rb with
              pendingBalance := rb.pendingBalance - r.price }
          else st.balances v) r.providerId with _ | pb
        · refine ⟨_, _, rfl, rfl, rfl, rfl, rfl, rfl, ?_⟩
          simp only [hpb, upsertBal]
          simp [hpb]
        · refine ⟨_, _, rfl, rfl, rfl, rfl, rfl, rfl, ?_⟩
          simp only [hpb, upsertBal]
          simp [hpb]

/-- Witness for C8 amended: the concrete lock writes one LOCK entry whose
balance delta is the negated amount. -/
theorem c8_amended_witness :
    ∃ e : ServiceTransaction,
      c8St1.transactions = c1Init.transactions ++ [e] ∧
      e.userId = 1 ∧ e.transactionType = TxType.LOCK ∧
      e.newBalance - e.previousBalance = -e.amount :=
  c8_amended.2.2.2.1 c1Init 1
    { providerId := 2, serviceType := ServiceType.CHAT, duration := 10 }
    0 c8St1 c8Req
    (Prod.ext rfl (by
      norm_num [createServiceRequest, resolveRequestPrice, c1Init,
        emptyState, sellerSettings, tier10, c8Req, List.find?]))

/-- C4: accepting a PENDING, non-stale request whose hold is LOCKED (via
`respondToRequest` by the provider) releases the escrow: the requester's
pendingBalance drops by the price with availableBalance untouched, the
provider's availableBalance and totalEarnings rise by the price, the hold
becomes RELEASED, the request becomes ACCEPTED, and a paid
`ServiceSession` from `now` to `now + duration` minutes is created. -/
theorem c4_accept_releases (st : MState) (rid : Nat) (now : Time)
    (r : ServiceRequest) (hold : PendingHold) (rb pb : UserBalance)
    (hfind : findRequest st.requests rid = some r)
    (hstatus : r.status = RequestStatus.PENDING)
    (hfresh : ¬ r.createdAt < now - expirationMs)
    (hhold : findLockedHold st.holds r.requesterId r.id = some hold)
    (hrb : st.balances r.requesterId = some rb)
    (hpb : st.balances r.providerId = some pb)
    (hne : r.requesterId ≠ r.providerId) :
    (respondToRequest st r.providerId rid true now).2 =
      .ok (some { requestId := r.id, requesterId := r.requesterId,
                  providerId := r.providerId, serviceType := r.serviceType,
                  duration := r.duration, price := r.price, startTime := now,
                  endTime := now + r.duration * 60000, isPaid := true }) ∧
    (respondToRequest st r.providerId rid true now).1.balances
        r.requesterId =
      some { rb with pendingBalance := rb.pendingBalance - r.price } ∧
    (respondToRequest st r.providerId rid true now).1.balances
        r.providerId =
      some { pb with
        availableBalance := pb.availableBalance + r.price,
        totalEarnings := pb.totalEarnings + r.price } ∧
    (respondToRequest st r.providerId rid true now).1.holds =
      setHold st.holds
        { hold with status := HoldStatus.RELEASED, releasedAt := some now } ∧
    (respondToRequest st r.providerId rid true now).1.requests =
      setRequest st.requests
        { r with status := RequestStatus.ACCEPTED,
                 respondedAt := some now } ∧
    (respondToRequest st r.providerId rid true now).1.serviceSessions =
      st.serviceSessions ++
        [{ requestId := r.id, requesterId := r.requesterId,
           providerId := r.providerId, serviceType := r.serviceType,
           duration := r.duration, price := r.price, startTime := now,
           endTime := now + r.duration * 60000, isPaid := true }] := by
  have hst : r.status ≠ RequestStatus.PENDING ↔ False := by simp [hstatus]
  refine ⟨?_, ?_, ?_, ?_, ?_, ?_⟩ <;>
    simp [respondToRequest, hfind, hstatus, hfresh, acceptRequest, hhold,
      hrb, hpb, upsertBal, hne, Ne.symm hne, Except.map]

/-! ### List helpers for the expiry-sweep proofs -/

/-- `find?` through a `map` whose function preserves the predicate on the
members. -/
theorem find?_map_pres {α : Type} (l : List α) (f : α → α) (p : α → Bool)
    (h : ∀ a ∈ l, p (f a) = p a) :
    (l.map f).find? p = (l.find? p).map f := by
  induction l with
  | nil => rfl
  | cons a t ih =>
    rw [List.map_cons, List.find?_cons, List.find?_cons,
      h a (List.mem_cons_self a t)]
    cases hpa : p a
    · exact ih (fun b hb => h b (List.mem_cons_of_mem a hb))
    · rfl

/-- In a list with `Nodup` keys, `find?` by a member's key returns that
member. -/
theorem find?_key {α : Type} (key : α → Nat) (l : List α)
    (hnd : (l.map key).Nodup) (a : α) (ha : a ∈ l) :
    l.find? (fun b => key b = key a) = some a := by
  induction l with
  | nil => cases ha
  | cons b t ih =>
    rw [List.map_cons, List.nodup_cons] at hnd
    rcases List.mem_cons.mp ha with h | h
    · subst h
      rw [List.find?_cons]
      simp
    · have hne : ¬ (key b = key a) := by
        intro he
        exact hnd.1 (he ▸ List.mem_map_of_mem key h)
      rw [List.find?_cons, decide_eq_false hne]
      exact ih hnd.2 h

/-- Splitting two decompositions of a duplicate-free list around the same
element. -/
theorem append_cons_eq_of_nodup {α : Type} :
    ∀ (A C : List α) (a : α) (B D : List α),
    A ++ a :: B = C ++ a :: D → (A ++ a :: B).Nodup → A = C ∧ B = D := by
  intro A
  induction A with
  | nil =>
    intro C a B D h hnd
    cases C with
    | nil => simpa using h
    | cons c C2 =>
      simp only [List.nil_append, List.cons_append, List.cons.injEq] at h
      obtain ⟨h1, h2⟩ := h
      subst h1
      simp only [List.nil_append, List.nodup_cons] at hnd
      exact absurd (h2 ▸ List.mem_append_right C2 (List.mem_cons_self a D))
        hnd.1
  | cons x A2 ih =>
    intro C a B D h hnd
    simp only [List.cons_append, List.nodup_cons] at hnd
    cases C with
    | nil =>
      simp only [List.cons_append, List.nil_append, List.cons.injEq] at h
      obtain ⟨h1, h2⟩ := h
      subst h1
      exact absurd (List.mem_append_right A2 (List.mem_cons_self x B)) hnd.1
    | cons c C2 =>
      simp only [List.cons_append, List.cons.injEq] at h
      obtain ⟨h1, h2⟩ := h
      subst h1
      obtain ⟨hA, hB⟩ := ih C2 a B D h2 hnd.2
      exact ⟨by rw [hA], hB⟩

/-! ### Single-step facts about `expireRequest` -/

/-- A failing `expireRequest` rolls everything back. -/
theorem expireRequest_error_eq (st : MState) (rid : Nat) (now : Time)
    (s1 : MState) (e : Err) (h : expireRequest st rid now = (s1, .error e)) :
    s1 = st := by
  unfold expireRequest at h
  split at h
  · simp at h
  case _ r hfind =>
    split at h
    · simp at h
    split at h
    · simp at h
    case _ hold hh =>
      split at h
      · injection h with h1 _; exact h1.symm
      · simp at h

/-- A failing `expireRequest` found a still-PENDING request. -/
theorem expireRequest_error_pending (st : MState) (rid : Nat) (now : Time)
    (s1 : MState) (e : Err)
    (h : expireRequest st rid now = (s1, .error e)) :
    ∃ r, findRequest st.requests rid = some r ∧
      r.status = RequestStatus.PENDING := by
  unfold expireRequest at h
  split at h
  · simp at h
  case _ r hfind =>
    split at h
    · simp at h
    case _ hp =>
      exact ⟨r, hfind, not_not.mp hp⟩

/-- The requests table after `expireRequest`: unchanged, or the found
PENDING request was overwritten with its EXPIRED copy. -/
theorem expireRequest_requests_shape (st : MState) (rid : Nat) (now : Time) :
    (expireRequest st rid now).1.requests = st.requests ∨
    ∃ r, findRequest st.requests rid = some r ∧
      r.status = RequestStatus.PENDING ∧
      (expireRequest st rid now).1.requests =
        setRequest st.requests (expiredVersion r now) := by
  unfold expireRequest
  split
  · exact Or.inl rfl
  case _ r hfind =>
    split
    · exact Or.inl rfl
    case _ hp =>
      have hpend := not_not.mp hp
      split
      · exact Or.inr ⟨r, hfind, hpend, rfl⟩
      case _ hold hh =>
        split
        · exact Or.inl rfl
        · exact Or.inr ⟨r, hfind, hpend, rfl⟩

/-- After a successful `expireRequest` on `rid`, the request at `rid` (if
any) is no longer PENDING. -/
theorem expireRequest_ok_not_pending (st : MState) (rid : Nat) (now : Time)
    (st1 : MState) (u : Unit)
    (heq : expireRequest st rid now = (st1, .ok u)) :
    ∀ r', findRequest st1.requests rid = some r' →
      r'.status ≠ RequestStatus.PENDING := by
  have hid : ∀ r : ServiceRequest, (expiredVersion r now).id = r.id := by
    intro r; rfl
  have hset : ∀ (r : ServiceRequest),
      findRequest (setRequest st.requests (expiredVersion r now)) rid =
        (findRequest st.requests rid).map
          (fun t => if t.id = (expiredVersion r now).id
            then expiredVersion r now else t) := by
    intro r
    refine find?_map_pres st.requests _ _ ?_
    intro a _
    by_cases hida : a.id = (expiredVersion r now).id
    · simp [hida, expiredVersion]
    · simp [hida]
  unfold expireRequest at heq
  split at heq
  case _ hfind =>
    injection heq with h1 _
    subst h1
    intro r' hr'
    rw [hfind] at hr'
    cases hr'
  case _ r hfind =>
    split at heq
    case _ hp =>
      injection heq with h1 _
      subst h1
      intro r' hr'
      rw [hfind] at hr'
      injection hr' with hr'
      subst hr'
      exact hp
    case _ hp =>
      split at heq
      · injection heq with h1 _
        subst h1
        intro r' hr'
        rw [hset r, hfind] at hr'
        simp [hid] at hr'
        subst hr'
        simp [expiredVersion]
      case _ hold hh =>
        split at heq
        · simp at heq
        · injection heq with h1 _
          subst h1
          intro r' hr'
          rw [hset r, hfind] at hr'
          simp [hid] at hr'
          subst hr'
          simp [expiredVersion]

/-- A non-PENDING slot can never become PENDING again under
`expireRequest`. -/
theorem expireRequest_not_pending_mono (st : MState) (rid rid2 : Nat)
    (now : Time)
    (h : ∀ r', findRequest st.requests rid = some r' →
      r'.status ≠ RequestStatus.PENDING) :
    ∀ r', findRequest (expireRequest st rid2 now).1.requests rid = some r' →
      r'.status ≠ RequestStatus.PENDING := by
  rcases expireRequest_requests_shape st rid2 now with hs | ⟨r, hfind, hp, hs⟩
  · rw [hs]; exact h
  · rw [hs]
    intro r' hr'
    unfold setRequest findRequest at hr'
    rw [find?_map_pres st.requests _ _ (by
      intro a _
      by_cases hida : a.id = (expiredVersion r now).id
      · simp [hida, expiredVersion]
      · simp [hida])] at hr'
    rcases hf : st.requests.find? (fun b => decide (b.id = rid)) with _ | r0
    · rw [hf] at hr'; cases hr'
    · rw [hf] at hr'
      simp only [Option.map_some'] at hr'
      injection hr' with hr'
      subst hr'
      by_cases hida : r0.id = (expiredVersion r now).id
      · rw [if_pos hida]
        simp [expiredVersion]
      · rw [if_neg hida]
        exact h r0 hf

/-- The non-PENDING property survives a whole sweep run. -/
theorem runExpireAll_not_pending_mono (rids : List Nat) (st : MState)
    (rid : Nat) (now : Time)
    (h : ∀ r', findRequest st.requests rid = some r' →
      r'.status ≠ RequestStatus.PENDING) :
    ∀ r', findRequest (runExpireAll st rids now).1.requests rid = some r' →
      r'.status ≠ RequestStatus.PENDING := by
  induction rids generalizing st with
  | nil => exact h
  | cons rid2 rest ih =>
    unfold runExpireAll
    split
    case _ s1 u heq =>
      have hs1 : ∀ r', findRequest s1.requests rid = some r' →
          r'.status ≠ RequestStatus.PENDING := by
        have := expireRequest_not_pending_mono st rid rid2 now h
        rwa [heq] at this
      exact ih s1 hs1
    case _ s1 e heq =>
      have := expireRequest_not_pending_mono st rid rid2 now h
      rwa [heq] at this

/-- After an entirely successful sweep run, no swept id is PENDING. -/
theorem runExpireAll_ok_not_pending (rids : List Nat) (st st1 : MState)
    (now : Time) (hok : runExpireAll st rids now = (st1, .ok ())) :
    ∀ rid ∈ rids, ∀ r', findRequest st1.requests rid = some r' →
      r'.status ≠ RequestStatus.PENDING := by
  induction rids generalizing st with
  | nil => simp
  | cons rid2 rest ih =>
    unfold runExpireAll at hok
    split at hok
    case _ s1 u heq =>
      intro rid hrid r' hr'
      rcases List.mem_cons.mp hrid with h | h
      · subst h
        have hs1 := expireRequest_ok_not_pending st rid now s1 u heq
        have hmono := runExpireAll_not_pending_mono rest s1 rid now hs1
        have hfst : (runExpireAll s1 rest now).1 = st1 := by rw [hok]
        rw [hfst] at hmono
        exact hmono r' hr'
      · exact ih s1 hok rid h r' hr'
    case _ s1 e heq =>
      simp at hok

/-- A failing sweep run decomposes into a successful prefix and a failing
head whose failure is reproducible verbatim on the final state. -/
theorem runExpireAll_error_split (rids : List Nat) (st st1 : MState)
    (now : Time) (e : Err)
    (h : runExpireAll st rids now = (st1, .error e)) :
    ∃ pre rid post, rids = pre ++ rid :: post ∧
      runExpireAll st pre now = (st1, .ok ()) ∧
      expireRequest st1 rid now = (st1, .error e) := by
  induction rids generalizing st with
  | nil => simp [runExpireAll] at h
  | cons rid2 rest ih =>
    unfold runExpireAll at h
    split at h
    case _ s1 u heq =>
      obtain ⟨pre, rid, post, hr, hok, herr⟩ := ih s1 h
      refine ⟨rid2 :: pre, rid, post, by rw [hr, List.cons_append], ?_, herr⟩
      unfold runExpireAll
      rw [heq]
      exact hok
    case _ s1 e2 heq =>
      have hst : s1 = st := expireRequest_error_eq st rid2 now s1 e2 heq
      subst hst
      injection h with h1 h2
      injection h2 with h2
      subst h1
      subst h2
      exact ⟨[], rid2, rest, rfl, rfl, heq⟩

/-- The requests table of a sweep run is a pointwise rewrite of the
original: each request is untouched, or (when PENDING) replaced by its
EXPIRED copy. -/
theorem runExpireAll_requests_shape (rids : List Nat) (st : MState)
    (now : Time) (hnd : (st.requests.map (fun r => r.id)).Nodup) :
    ∃ g, (runExpireAll st rids now).1.requests = st.requests.map g ∧
      ∀ r ∈ st.requests, g r = r ∨
        (r.status = RequestStatus.PENDING ∧ g r = expiredVersion r now) := by
  induction rids generalizing st with
  | nil => exact ⟨id, by simp [runExpireAll], fun r _ => Or.inl rfl⟩
  | cons rid rest ih =>
    have hstep : ∃ f,
        (expireRequest st rid now).1.requests = st.requests.map f ∧
        ∀ r ∈ st.requests, f r = r ∨
          (r.status = RequestStatus.PENDING ∧ f r = expiredVersion r now) := by
      rcases expireRequest_requests_shape st rid now with hs |
          ⟨r, hfind, hp, hs⟩
      · exact ⟨id, by simpa using hs, fun r _ => Or.inl rfl⟩
      · refine ⟨fun t => if t.id = (expiredVersion r now).id
            then expiredVersion r now else t, hs, ?_⟩
        intro t ht
        by_cases hida : t.id = (expiredVersion r now).id
        · have hmem_r : r ∈ st.requests := List.mem_of_find?_eq_some hfind
          have hid2 : t.id = r.id := by
            simpa [expiredVersion] using hida
          have h1 : List.find? (fun b => decide (b.id = t.id)) st.requests =
              some t := find?_key (fun x => x.id) st.requests hnd t ht
          have h2 : List.find? (fun b => decide (b.id = r.id)) st.requests =
              some r := find?_key (fun x => x.id) st.requests hnd r hmem_r
          rw [hid2] at h1
          have hteq : t = r := by
            have h4 := h1.symm.trans h2
            injection h4
          subst hteq
          refine Or.inr ⟨hp, ?_⟩
          show (if t.id = (expiredVersion t now).id
            then expiredVersion t now else t) = expiredVersion t now
          rw [if_pos hida]
        · exact Or.inl (if_neg hida)
    obtain ⟨f, hf, hfinv⟩ := hstep
    unfold runExpireAll
    split
    case _ s1 u heq =>
      have hs1req : s1.requests = st.requests.map f := by rw [← hf, heq]
      have hids : s1.requests.map (fun r => r.id) =
          st.requests.map (fun r => r.id) := by
        rw [hs1req, List.map_map]
        refine List.map_congr_left ?_
        intro r hr
        rcases hfinv r hr with h | ⟨_, h⟩ <;>
          simp [Function.comp, h, expiredVersion]
      have hnd1 : (s1.requests.map (fun r => r.id)).Nodup := by
        rw [hids]; exact hnd
      obtain ⟨g, hg, hginv⟩ := ih s1 hnd1
      refine ⟨g ∘ f, ?_, ?_⟩
      · rw [hg, hs1req, List.map_map]
      · intro r hr
        have hfr_mem : f r ∈ s1.requests := by
          rw [hs1req]; exact List.mem_map_of_mem f hr
        rcases hfinv r hr with h1 | ⟨hp1, h1⟩
        · rcases hginv (f r) hfr_mem with h2 | ⟨hp2, h2⟩
          · exact Or.inl (by simp [Function.comp, h1] at h2 ⊢; rw [h2])
          · rw [h1] at hp2 h2
            exact Or.inr ⟨hp2, by simp [Function.comp, h1, h2]⟩
        · rcases hginv (f r) hfr_mem with h2 | ⟨hp2, h2⟩
          · rw [h1] at h2
            exact Or.inr ⟨hp1, by simp [Function.comp, h1, h2]⟩
          · rw [h1] at hp2
            simp [expiredVersion] at hp2
    case _ s1 e heq =>
      have hs1req : s1.requests = st.requests.map f := by rw [← hf, heq]
      exact ⟨f, hs1req, hfinv⟩

/-- Looking up a member's id through an id-preserving pointwise rewrite. -/
theorem findRequest_map_of_ids (l : List ServiceRequest)
    (g : ServiceRequest → ServiceRequest)
    (hids : ∀ r ∈ l, (g r).id = r.id)
    (hnd : (l.map (fun r => r.id)).Nodup)
    (r0 : ServiceRequest) (h0 : r0 ∈ l) :
    findRequest (l.map g) r0.id = some (g r0) := by
  unfold findRequest
  rw [find?_map_pres l g _ (fun a ha => by rw [hids a ha])]
  have hk : List.find? (fun b => decide (b.id = r0.id)) l = some r0 :=
    find?_key (fun x => x.id) l hnd r0 h0
  rw [hk]
  rfl

/-- Running the auto-expire sweep twice (with the same clock) commits in
the second run exactly nothing: the state after the second sweep is the
state after the first. -/
theorem autoExpire_sweep_twice (st : MState) (now : Time)
    (hnd : (st.requests.map (fun r => r.id)).Nodup) :
    (autoExpireOldRequests (autoExpireOldRequests st now).1 now).1 =
      (autoExpireOldRequests st now).1 := by
  simp only [autoExpireOldRequests]
  rcases hrun : runExpireAll st
      ((staleFilter now st.requests).map (fun r => r.id)) now with ⟨st1, res⟩
  rw [hrun]
  have hgshape : ∀ (rids : List Nat) (s2 : MState),
      (runExpireAll st rids now).1 = s2 →
      ∃ g, s2.requests = st.requests.map g ∧
        ∀ r ∈ st.requests, g r = r ∨
          (r.status = RequestStatus.PENDING ∧ g r = expiredVersion r now) := by
    intro rids s2 hs2
    obtain ⟨g, hg, hi⟩ := runExpireAll_requests_shape rids st now hnd
    exact ⟨g, hs2 ▸ hg, hi⟩
  cases res with
  | ok u =>
    cases u
    have hsel : staleFilter now st1.requests = [] := by
      unfold staleFilter
      rw [List.filter_eq_nil_iff]
      intro r1 hr1 hpr1
      obtain ⟨g, hg, hginv⟩ := hgshape _ st1 (by rw [hrun])
      rw [hg] at hr1
      obtain ⟨r0, hr0, hr0e⟩ := List.mem_map.mp hr1
      rw [Bool.and_eq_true, decide_eq_true_iff, decide_eq_true_iff] at hpr1
      have hpend : r1.status = RequestStatus.PENDING := hpr1.1
      have hids : ∀ r ∈ st.requests, (g r).id = r.id := by
        intro r hr
        rcases hginv r hr with h | ⟨_, h⟩ <;> simp [h, expiredVersion]
      rcases hginv r0 hr0 with hcase | ⟨_, hcase⟩
      · have hr1r0 : r1 = r0 := by rw [← hr0e, hcase]
        subst hr1r0
        have hsel0 : r1 ∈ staleFilter now st.requests := by
          unfold staleFilter
          rw [List.mem_filter]
          exact ⟨hr0, by
            rw [Bool.and_eq_true, decide_eq_true_iff, decide_eq_true_iff]
            exact hpr1⟩
        have hidmem : r1.id ∈ (staleFilter now st.requests).map
            (fun r => r.id) := List.mem_map_of_mem _ hsel0
        have hnp := runExpireAll_ok_not_pending _ st st1 now hrun r1.id
          hidmem
        have hfind : findRequest st1.requests r1.id = some (g r1) := by
          rw [hg]
          exact findRequest_map_of_ids st.requests g hids hnd r1 hr0
        rw [hcase] at hfind
        exact hnp r1 hfind hpend
      · rw [← hr0e, hcase] at hpend
        simp [expiredVersion] at hpend
    rw [hsel]
    rfl
  | error e =>
    obtain ⟨pre, rid, post, hdecomp, hok, herr⟩ :=
      runExpireAll_error_split _ st st1 now e hrun
    obtain ⟨r1, hfind1, hpend1⟩ :=
      expireRequest_error_pending st1 rid now st1 e herr
    obtain ⟨g, hg, hginv⟩ := hgshape pre st1 (by rw [hok])
    have hids : ∀ r ∈ st.requests, (g r).id = r.id := by
      intro r hr
      rcases hginv r hr with h | ⟨_, h⟩ <;> simp [h, expiredVersion]
    have hridmem : rid ∈ (staleFilter now st.requests).map (fun r => r.id) := by
      rw [hdecomp]
      exact List.mem_append_right pre (List.mem_cons_self rid post)
    obtain ⟨rr, hrrsel, hrrid⟩ := List.mem_map.mp hridmem
    have hrrmem : rr ∈ st.requests := List.mem_of_mem_filter hrrsel
    have hprr : (rr.status = RequestStatus.PENDING ∧
        rr.createdAt < now - expirationMs) := by
      have := (List.mem_filter.mp hrrsel).2
      rwa [Bool.and_eq_true, decide_eq_true_iff, decide_eq_true_iff] at this
    have hfindrr : findRequest st1.requests rr.id = some (g rr) := by
      rw [hg]
      exact findRequest_map_of_ids st.requests g hids hnd rr hrrmem
    have hr1grr : r1 = g rr := by
      rw [hrrid] at hfindrr
      rw [hfindrr] at hfind1
      injection hfind1 with h
      exact h.symm
    have hgrr : g rr = rr := by
      rcases hginv rr hrrmem with h | ⟨_, h⟩
      · exact h
      · rw [← hr1grr] at h ⊢
        rw [h] at hpend1
        simp [expiredVersion] at hpend1
    obtain ⟨lpre, lpost, hsplit⟩ := List.append_of_mem hrrmem
    have hfsplit : staleFilter now st.requests =
        staleFilter now lpre ++ rr :: staleFilter now lpost := by
      unfold staleFilter
      rw [hsplit, List.filter_append, List.filter_cons]
      have : (decide (rr.status = RequestStatus.PENDING) &&
          decide (rr.createdAt < now - expirationMs)) = true := by
        rw [Bool.and_eq_true, decide_eq_true_iff, decide_eq_true_iff]
        exact hprr
      rw [if_pos this]
    have hndsel : ((staleFilter now st.requests).map (fun r => r.id)).Nodup := by
      unfold staleFilter
      exact ((List.filter_sublist st.requests).map (fun r => r.id)).nodup hnd
    have hAB : (staleFilter now lpre).map (fun r => r.id) = pre ∧
        (staleFilter now lpost).map (fun r => r.id) = post := by
      have heq2 : (staleFilter now lpre).map (fun r => r.id) ++
          rid :: (staleFilter now lpost).map (fun r => r.id) =
          pre ++ rid :: post := by
        rw [← hdecomp, hfsplit]
        simp [hrrid]
      have hnd2 : ((staleFilter now lpre).map (fun r => r.id) ++
          rid :: (staleFilter now lpost).map (fun r => r.id)).Nodup := by
        rw [heq2, ← hdecomp]
        exact hndsel
      exact append_cons_eq_of_nodup _ _ _ _ _ heq2 hnd2
    have hprefilter : staleFilter now (lpre.map g) = [] := by
      unfold staleFilter
      rw [List.filter_eq_nil_iff]
      intro t1 ht1 hpt1
      obtain ⟨t, ht, hte⟩ := List.mem_map.mp ht1
      rw [Bool.and_eq_true, decide_eq_true_iff, decide_eq_true_iff] at hpt1
      have htmem : t ∈ st.requests := by
        rw [hsplit]
        exact List.mem_append_left _ ht
      rcases hginv t htmem with hcase | ⟨_, hcase⟩
      · have ht1t : t1 = t := by rw [← hte, hcase]
        subst ht1t
        have htsel : t1 ∈ staleFilter now lpre := by
          unfold staleFilter
          rw [List.mem_filter]
          exact ⟨ht, by
            rw [Bool.and_eq_true, decide_eq_true_iff, decide_eq_true_iff]
            exact hpt1⟩
        have htid : t1.id ∈ pre := by
          rw [← hAB.1]
          exact List.mem_map_of_mem _ htsel
        have hnp := runExpireAll_ok_not_pending pre st st1 now hok t1.id htid
        have hfind : findRequest st1.requests t1.id = some (g t1) := by
          rw [hg]
          exact findRequest_map_of_ids st.requests g hids hnd t1 htmem
        rw [hcase] at hfind
        exact hnp t1 hfind hpt1.1
      · rw [← hte, hcase] at hpt1
        simp [expiredVersion] at hpt1
    have hsel1 : staleFilter now st1.requests =
        rr :: staleFilter now (lpost.map g) := by
      have hreq1 : st1.requests = lpre.map g ++ g rr :: lpost.map g := by
        rw [hg, hsplit]
        simp
      rw [hreq1]
      unfold staleFilter at hprefilter ⊢
      rw [List.filter_append, hprefilter, List.filter_cons]
      have : (decide ((g rr).status = RequestStatus.PENDING) &&
          decide ((g rr).createdAt < now - expirationMs)) = true := by
        rw [hgrr, Bool.and_eq_true, decide_eq_true_iff, decide_eq_true_iff]
        exact hprr
      rw [if_pos this, hgrr]
      rfl
    rw [hsel1]
    simp only [List.map_cons, hrrid]
    unfold runExpireAll
    rw [herr]

/-- C6: `expireRequest` is idempotent — a no-op when the request is
missing or no longer PENDING; on a PENDING request with a LOCKED hold it
moves the price from pendingBalance back to availableBalance, marks the
hold EXPIRED and the request EXPIRED; and running the auto-expire sweep
twice with the same clock leaves the state of the first run unchanged
(no double refund). -/
theorem c6_expire_idempotent (st : MState) (rid : Nat) (now : Time) :
    (findRequest st.requests rid = none →
      expireRequest st rid now = (st, .ok ())) ∧
    (∀ r, findRequest st.requests rid = some r →
      r.status ≠ RequestStatus.PENDING →
      expireRequest st rid now = (st, .ok ())) ∧
    (∀ r hold rb, findRequest st.requests rid = some r →
      r.status = RequestStatus.PENDING →
      findLockedHold st.holds r.requesterId rid = some hold →
      st.balances r.requesterId = some rb →
      (expireRequest st rid now).1.balances r.requesterId =
        some { rb with
          availableBalance := rb.availableBalance + r.price,
          pendingBalance := rb.pendingBalance - r.price } ∧
      (expireRequest st rid now).1.holds =
        setHold st.holds { hold with
          status := HoldStatus.EXPIRED, releasedAt := some now } ∧
      (expireRequest st rid now).1.requests =
        setRequest st.requests (expiredVersion r now)) ∧
    ((st.requests.map (fun r => r.id)).Nodup →
      (autoExpireOldRequests (autoExpireOldRequests st now).1 now).1 =
        (autoExpireOldRequests st now).1) := by
  refine ⟨?_, ?_, ?_, fun hnd => autoExpire_sweep_twice st now hnd⟩
  · intro h
    simp [expireRequest, h]
  · intro r hfind hnp
    simp [expireRequest, hfind, hnp]
  · intro r hold rb hfind hstatus hhold hrb
    refine ⟨?_, ?_, ?_⟩ <;>
      simp [expireRequest, hfind, hstatus, hhold, hrb]

/-- Witness for C6 at the concrete post-lock store: expiring request 0
marks its hold EXPIRED. -/
theorem c6_expire_idempotent_witness :
    (expireRequest c8St1 0 700000000).1.holds =
      setHold c8St1.holds { c6Hold with
        status := HoldStatus.EXPIRED, releasedAt := some 700000000 } :=
  ((c6_expire_idempotent c8St1 0 700000000).2.2.1 c8Req c6Hold
    ⟨0, 100, 0, 0⟩
    (by norm_num [c8St1, createServiceRequest, resolveRequestPrice, c1Init,
      emptyState, sellerSettings, tier10, findRequest, List.find?, c8Req])
    rfl
    (by norm_num [c8St1, createServiceRequest, resolveRequestPrice, c1Init,
      emptyState, sellerSettings, tier10, findLockedHold, List.find?,
      c6Hold, c8Req])
    (by norm_num [c8St1, createServiceRequest, resolveRequestPrice, c1Init,
      emptyState, sellerSettings, tier10, c8Req])).2.1

/-- Witness for C4 at the concrete post-lock store: provider 2 accepts
request 0 and the hold is released. -/
theorem c4_accept_releases_witness :
    (respondToRequest c8St1 2 0 true 1000).1.holds =
      setHold c8St1.holds { c6Hold with
        status := HoldStatus.RELEASED, releasedAt := some 1000 } :=
  (c4_accept_releases c8St1 0 1000 c8Req c6Hold ⟨0, 100, 0, 0⟩ ⟨0, 0, 0, 0⟩
    (by norm_num [c8St1, createServiceRequest, resolveRequestPrice, c1Init,
      emptyState, sellerSettings, tier10, findRequest, List.find?, c8Req])
    rfl
    (by norm_num [c8Req, expirationMs])
    (by norm_num [c8St1, createServiceRequest, resolveRequestPrice, c1Init,
      emptyState, sellerSettings, tier10, findLockedHold, List.find?,
      c6Hold, c8Req])
    (by norm_num [c8St1, createServiceRequest, resolveRequestPrice, c1Init,
      emptyState, sellerSettings, tier10, c8Req])
    (by norm_num [c8St1, createServiceRequest, resolveRequestPrice, c1Init,
      emptyState, sellerSettings, tier10, c8Req])
    (by norm_num [c8Req])).2.2.2.1

/-! ### Balance-map and locked-sum lemmas -/

/-- Overwriting one row with a non-negative row keeps all rows
non-negative. -/
theorem balancesNonneg_set (bals : UserId → Option UserBalance)
    (x : UserId) (b2 : UserBalance) (hb : BalancesNonneg bals)
    (h1 : 0 ≤ b2.availableBalance) (h2 : 0 ≤ b2.pendingBalance) :
    BalancesNonneg (fun v => if v = x then some b2 else bals v) := by
  intro u b h
  have h3 : (if u = x then some b2 else bals u) = some b := h
  by_cases hu : u = x
  · rw [if_pos hu] at h3
    injection h3 with h3
    subst h3
    exact ⟨h1, h2⟩
  · rw [if_neg hu] at h3
    exact hb u b h3

/-- `upsertBal` with a non-negativity-preserving update and non-negative
create keeps all rows non-negative. -/
theorem balancesNonneg_upsert (bals : UserId → Option UserBalance)
    (x : UserId) (f : UserBalance → UserBalance) (c : UserBalance)
    (hb : BalancesNonneg bals)
    (hf : ∀ b, 0 ≤ b.availableBalance → 0 ≤ b.pendingBalance →
      0 ≤ (f b).availableBalance ∧ 0 ≤ (f b).pendingBalance)
    (hc1 : 0 ≤ c.availableBalance) (hc2 : 0 ≤ c.pendingBalance) :
    BalancesNonneg (upsertBal bals x f c) := by
  intro u b h
  unfold upsertBal at h
  by_cases hu : u = x
  · rw [if_pos hu] at h
    rcases hx : bals x with _ | b0
    · rw [hx] at h
      injection h with h
      subst h
      exact ⟨hc1, hc2⟩
    · rw [hx] at h
      injection h with h
      subst h
      obtain ⟨ha, hp⟩ := hb x b0 hx
      exact hf b0 ha hp
  · rw [if_neg hu] at h
    exact hb u b h

/-- Each locked-sum contribution is non-negative. -/
theorem lockedSum_nonneg (holds : List PendingHold) (u : UserId)
    (hamts : ∀ h ∈ holds, 0 ≤ h.amount) : 0 ≤ lockedSum holds u := by
  unfold lockedSum
  refine List.sum_nonneg ?_
  intro q hq
  obtain ⟨h, hh, he⟩ := List.mem_map.mp hq
  subst he
  split
  · exact hamts h hh
  · exact le_refl 0

/-- One LOCKED member is bounded by the locked sum. -/
theorem single_le_lockedSum (holds : List PendingHold) (u : UserId)
    (hamts : ∀ h ∈ holds, 0 ≤ h.amount) (h : PendingHold) (hm : h ∈ holds)
    (hu : h.userId = u) (hs : h.status = HoldStatus.LOCKED) :
    h.amount ≤ lockedSum holds u := by
  induction holds with
  | nil => cases hm
  | cons a t ih =>
    have hta : ∀ h2 ∈ t, 0 ≤ h2.amount :=
      fun h2 hh => hamts h2 (List.mem_cons_of_mem a hh)
    unfold lockedSum
    simp only [List.map_cons, List.sum_cons]
    rcases List.mem_cons.mp hm with he | hm2
    · subst he
      rw [if_pos ⟨hu, hs⟩]
      have := lockedSum_nonneg t u hta
      unfold lockedSum at this
      linarith
    · have hrec := ih hta hm2
      unfold lockedSum at hrec
      have ha : (0 : ℚ) ≤
          (if a.userId = u ∧ a.status = HoldStatus.LOCKED
            then a.amount else 0) := by
        split
        · exact hamts a (List.mem_cons_self a t)
        · exact le_refl 0
      linarith

/-- Flipping holds to a non-LOCKED status can only lower locked sums. -/
theorem lockedSum_setHold_mono (holds : List PendingHold) (h2 : PendingHold)
    (hns : ¬ h2.status = HoldStatus.LOCKED)
    (hamts : ∀ h ∈ holds, 0 ≤ h.amount) (u : UserId) :
    lockedSum (setHold holds h2) u ≤ lockedSum holds u := by
  induction holds with
  | nil => simp [lockedSum, setHold]
  | cons a t ih =>
    have hta : ∀ h ∈ t, 0 ≤ h.amount :=
      fun h hh => hamts h (List.mem_cons_of_mem a hh)
    have hrec := ih hta
    unfold lockedSum setHold at hrec ⊢
    simp only [List.map_cons, List.sum_cons]
    have hhead : (if (if a.id = h2.id then h2 else a).userId = u ∧
        (if a.id = h2.id then h2 else a).status = HoldStatus.LOCKED
        then (if a.id = h2.id then h2 else a).amount else 0) ≤
        (if a.userId = u ∧ a.status = HoldStatus.LOCKED
          then a.amount else 0) := by
      by_cases hid : a.id = h2.id
      · rw [if_pos hid]
        rw [if_neg (by intro hc; exact hns hc.2)]
        split
        · exact hamts a (List.mem_cons_self a t)
        · exact le_refl 0
      · rw [if_neg hid]
    linarith

/-- Flipping a LOCKED member to a non-LOCKED status drops the owner's
locked sum by at least that amount. -/
theorem lockedSum_setHold_le (holds : List PendingHold) (u : UserId)
    (h h2 : PendingHold) (hm : h ∈ holds) (hid : h2.id = h.id)
    (hns : ¬ h2.status = HoldStatus.LOCKED)
    (hamts : ∀ h3 ∈ holds, 0 ≤ h3.amount)
    (hu : h.userId = u) (hs : h.status = HoldStatus.LOCKED) :
    lockedSum (setHold holds h2) u ≤ lockedSum holds u - h.amount := by
  induction holds with
  | nil => cases hm
  | cons a t ih =>
    have hta : ∀ h3 ∈ t, 0 ≤ h3.amount :=
      fun h3 hh => hamts h3 (List.mem_cons_of_mem a hh)
    rcases List.mem_cons.mp hm with he | hm2
    · subst he
      unfold lockedSum setHold
      simp only [List.map_cons, List.sum_cons]
      rw [if_pos hid.symm]
      rw [if_neg (by intro hc; exact hns hc.2)]
      rw [if_pos ⟨hu, hs⟩]
      have := lockedSum_setHold_mono t h2 hns hta u
      unfold lockedSum setHold at this
      linarith
    · have hrec := ih hm2 hta
      unfold lockedSum setHold at hrec ⊢
      simp only [List.map_cons, List.sum_cons]
      have hhead : (if (if a.id = h2.id then h2 else a).userId = u ∧
          (if a.id = h2.id then h2 else a).status = HoldStatus.LOCKED
          then (if a.id = h2.id then h2 else a).amount else 0) ≤
          (if a.userId = u ∧ a.status = HoldStatus.LOCKED
            then a.amount else 0) := by
        by_cases hida : a.id = h2.id
        · rw [if_pos hida]
          rw [if_neg (by intro hc; exact hns hc.2)]
          split
          · exact hamts a (List.mem_cons_self a t)
          · exact le_refl 0
        · rw [if_neg hida]
      linarith

/-! ### Per-operation balance lemmas -/

/-- A successfully priced charge has a non-negative total. -/
theorem chargeAmounts_nonneg (settings : MonetizationSettings)
    (ct : MessageType) (d : Option ℚ) (bp u2 ta : ℚ)
    (hp : 0 ≤ settings.voiceNotePrice ∧ 0 ≤ settings.imagePrice ∧
      0 ≤ settings.videoPrice)
    (hd : 0 ≤ d.getD 0)
    (h : chargeAmounts settings ct d = .ok (some (bp, u2, ta))) :
    0 ≤ ta := by
  unfold chargeAmounts at h
  split at h
  · simp at h
  split at h
  · split at h
    · simp at h
    · simp only [Except.ok.injEq, Option.some.injEq, Prod.mk.injEq] at h
      obtain ⟨h1, h2, h3⟩ := h
      subst h3
      exact mul_nonneg hp.1 hd
  split at h
  · simp only [Except.ok.injEq, Option.some.injEq, Prod.mk.injEq] at h
    obtain ⟨h1, h2, h3⟩ := h
    subst h3
    exact hp.2.1
  split at h
  · split at h
    · simp at h
    · simp only [Except.ok.injEq, Option.some.injEq, Prod.mk.injEq] at h
      obtain ⟨h1, h2, h3⟩ := h
      subst h3
      exact mul_nonneg hp.2.2 hd
  · simp at h

/-- A successfully resolved request price is non-negative. -/
theorem resolveRequestPrice_nonneg (settings : MonetizationSettings)
    (sty : ServiceType) (dur : ℚ) (price : ℚ)
    (hp : 0 ≤ settings.voiceNotePrice ∧ 0 ≤ settings.imagePrice ∧
      0 ≤ settings.videoPrice ∧ ∀ t ∈ settings.chatTimeTiers, 0 ≤ t.price)
    (h : resolveRequestPrice settings sty dur = .ok price) : 0 ≤ price := by
  unfold resolveRequestPrice at h
  cases sty with
  | CHAT =>
    rcases hf : settings.chatTimeTiers.find? (fun t =>
        t.durationMinutes = dur && t.isActive) with _ | tier
    · rw [hf] at h; simp at h
    · rw [hf] at h
      injection h with h
      subst h
      exact hp.2.2.2 tier (List.mem_of_find?_eq_some hf)
  | VIDEO => injection h with h; subst h; exact hp.2.2.1
  | AUDIO => injection h with h; subst h; exact hp.1

/-- `activateSession` never touches balances. -/
theorem activateSession_balances (st : MState) (sid : Nat) (now : Time) :
    (activateSession st sid now).1.balances = st.balances := by
  simp only [activateSession]
  repeat' split
  all_goals rfl

/-- `pauseSession` never touches balances. -/
theorem pauseSession_balances (st : MState) (sid : Nat) (u : UserId)
    (now : Time) :
    (pauseSession st sid u now).1.balances = st.balances := by
  simp only [pauseSession]
  repeat' split
  all_goals rfl

/-- `updateSessionActivity` never touches balances. -/
theorem updateSessionActivity_balances (st : MState) (sid : Nat)
    (now : Time) :
    (updateSessionActivity st sid now).1.balances = st.balances := by
  simp only [updateSessionActivity]
  split
  · rfl
  split
  · exact activateSession_balances st sid now
  split
  · rfl
  · rfl

/-- The auto-pause sweep never touches balances. -/
theorem autoPause_balances (st : MState) (i : ℚ) (now : Time) :
    (autoPauseInactiveSessions st i now).balances = st.balances := rfl

/-- `updBal` with a pending-preserving update keeps pending
non-negative. -/
theorem pendingNonneg_updBal (bals : UserId → Option UserBalance)
    (x : UserId) (f : UserBalance → UserBalance)
    (hb : PendingNonneg bals)
    (bals2 : UserId → Option UserBalance)
    (h : updBal bals x f = some bals2)
    (hf : ∀ b, (f b).pendingBalance = b.pendingBalance) :
    PendingNonneg bals2 := by
  unfold updBal at h
  rcases hx : bals x with _ | b0
  · rw [hx] at h; cases h
  · rw [hx] at h
    injection h with h
    subst h
    intro u b hu
    have hu2 : (if u = x then some (f b0) else bals u) = some b := hu
    by_cases he : u = x
    · rw [if_pos he] at hu2
      injection hu2 with hu2
      subst hu2
      rw [hf b0]
      exact hb x b0 hx
    · rw [if_neg he] at hu2
      exact hb u b hu2

/-- `cancelSession` leaves every pendingBalance untouched (and hence
non-negative), whatever branch it takes. -/
theorem cancelSession_pending (st : MState) (sid : Nat) (u : UserId)
    (now : Time) (hb : PendingNonneg st.balances) :
    PendingNonneg (cancelSession st sid u now).1.balances := by
  simp only [cancelSession]
  split
  · exact hb
  case _ s hfind =>
    split
    · exact hb
    split
    · exact hb
    split
    · split
      · exact hb
      case _ bals1 h1 =>
        split
        · exact hb
        case _ bals2 h2 =>
          have hp1 : PendingNonneg bals1 :=
            pendingNonneg_updBal _ _ _ hb _ h1 (fun b => rfl)
          exact pendingNonneg_updBal _ _ _ hp1 _ h2 (fun b => rfl)
    · exact hb

/-- A chat-time purchase keeps all balances non-negative. -/
theorem purchase_nonneg (st : MState) (b s : UserId) (d : ℚ) (n : Time)
    (hb : BalancesNonneg st.balances) (hwf : EscrowWF st) :
    BalancesNonneg (purchaseChatTime st b s d n).1.balances := by
  simp only [purchaseChatTime]
  split
  · exact hb
  case _ settings hset =>
    split
    · exact hb
    split
    · exact hb
    case _ tier htier =>
      split
      · exact hb
      split
      · exact hb
      case _ bb hbb =>
        split
        · exact hb
        case _ hsuff =>
          have hprice : 0 ≤ tier.price :=
            (hwf.prices s settings hset).2.2.2 tier
              (List.mem_of_find?_eq_some htier)
          have hbb2 := hb b bb hbb
          have hb1 := balancesNonneg_set st.balances b
            { bb with
              availableBalance := bb.availableBalance - tier.price,
              totalSpent := bb.totalSpent + tier.price } hb
            (by
              have := not_lt.mp hsuff
              simp only
              linarith)
            (by simpa using hbb2.2)
          exact balancesNonneg_upsert _ s _ _ hb1
            (fun b0 ha hp => ⟨by simp only; linarith, by simpa using hp⟩)
            (by simpa using hprice) (by norm_num)

/-- A content charge keeps all balances non-negative (for a non-negative
duration argument). -/
theorem charge_nonneg (st : MState) (m sid : Nat) (s r : UserId)
    (ct : MessageType) (d : Option ℚ)
    (hb : BalancesNonneg st.balances) (hwf : EscrowWF st)
    (hd : 0 ≤ d.getD 0) :
    BalancesNonneg (createContentCharge st m sid s r ct d).1.balances := by
  simp only [createContentCharge]
  split
  · exact hb
  case _ settings hset =>
    split
    · exact hb
    split
    · exact hb
    · exact hb
    case _ bp u2 ta hamt =>
      split
      · exact hb
      case _ sb hsb =>
        split
        · exact hb
        case _ hsuff =>
          split
          · exact hb
          case _ hdup =>
            have hpr := hwf.prices r settings hset
            have hta : 0 ≤ ta := chargeAmounts_nonneg settings ct d bp u2 ta
              ⟨hpr.1, hpr.2.1, hpr.2.2.1⟩ hd hamt
            have hsb2 := hb s sb hsb
            have hb1 := balancesNonneg_set st.balances s
              { sb with
                availableBalance := sb.availableBalance - ta,
                totalSpent := sb.totalSpent + ta } hb
              (by
                have := not_lt.mp hsuff
                simp only
                linarith)
              (by simpa using hsb2.2)
            exact balancesNonneg_upsert _ r _ _ hb1
              (fun b0 ha hp => ⟨by simp only; linarith, by simpa using hp⟩)
              (by simpa using hta) (by norm_num)

/-- Creating a service request keeps all balances non-negative. -/
theorem createReq_nonneg (st : MState) (u : UserId)
    (dto : CreateServiceRequestDto) (n : Time)
    (hb : BalancesNonneg st.balances) (hwf : EscrowWF st) :
    BalancesNonneg (createServiceRequest st u dto n).1.balances := by
  simp only [createServiceRequest]
  split
  · exact hb
  split
  · exact hb
  case _ ps hset =>
    split
    · exact hb
    split
    · exact hb
    case _ price hpr =>
      split
      · exact hb
      case _ rb hrb =>
        split
        · exact hb
        case _ hsuff =>
          have hp := hwf.prices dto.providerId ps hset
          have hpnn : 0 ≤ price := resolveRequestPrice_nonneg ps
            dto.serviceType dto.duration price
            ⟨hp.1, hp.2.1, hp.2.2.1, hp.2.2.2⟩ hpr
          have hrb2 := hb u rb hrb
          exact balancesNonneg_set st.balances u
            { rb with
              availableBalance := rb.availableBalance - price,
              pendingBalance := rb.pendingBalance + price } hb
            (by
              have := not_lt.mp hsuff
              simp only
              linarith)
            (by
              simp only
              linarith [hrb2.2])

/-- A found LOCKED hold's request price is covered by the owner's
pendingBalance. -/
theorem lockedHold_price_le_pending (st : MState) (hwf : EscrowWF st)
    (r : ServiceRequest) (hr : r ∈ st.requests) (h : PendingHold)
    (hh : findLockedHold st.holds r.requesterId r.id = some h)
    (rb : UserBalance) (hrb : st.balances r.requesterId = some rb) :
    r.price ≤ rb.pendingBalance := by
  have hmem := List.mem_of_find?_eq_some hh
  have hprop := List.find?_some hh
  simp only [Bool.and_eq_true, decide_eq_true_iff] at hprop
  obtain ⟨⟨hu, hsid⟩, hlocked⟩ := hprop
  have hamt : h.amount = r.price := hwf.holdMatch h hmem r hr hsid
  have hle := single_le_lockedSum st.holds r.requesterId hwf.holdAmts h hmem
    hu hlocked
  have hcov := hwf.holdCover r.requesterId rb hrb
  linarith

/-- Members of `setHold`. -/
theorem mem_setHold (holds : List PendingHold) (h2 h3 : PendingHold)
    (h : h3 ∈ setHold holds h2) : h3 = h2 ∨ h3 ∈ holds := by
  unfold setHold at h
  obtain ⟨t, ht, hte⟩ := List.mem_map.mp h
  by_cases hid : t.id = h2.id
  · rw [if_pos hid] at hte
    exact Or.inl hte.symm
  · rw [if_neg hid] at hte
    exact Or.inr (hte ▸ ht)

/-- Members of `setRequest`. -/
theorem mem_setRequest (l : List ServiceRequest) (r2 r3 : ServiceRequest)
    (h : r3 ∈ setRequest l r2) :
    ∃ r0 ∈ l, r3 = (if r0.id = r2.id then r2 else r0) := by
  unfold setRequest at h
  obtain ⟨t, ht, hte⟩ := List.mem_map.mp h
  exact ⟨t, ht, hte.symm⟩

/-- `setRequest` never changes the id column. -/
theorem setRequest_map_id (l : List ServiceRequest) (r2 : ServiceRequest) :
    (setRequest l r2).map (fun r => r.id) = l.map (fun r => r.id) := by
  unfold setRequest
  rw [List.map_map]
  refine List.map_congr_left ?_
  intro t ht
  by_cases h : t.id = r2.id
  · simp [Function.comp, h]
  · simp [Function.comp, h]

/-- A member sharing the looked-up id is the found request. -/
theorem eq_of_mem_id (l : List ServiceRequest)
    (hnd : (l.map (fun r => r.id)).Nodup) (rid : Nat) (r r0 : ServiceRequest)
    (hfind : findRequest l rid = some r) (h0 : r0 ∈ l) (hid : r0.id = rid) :
    r0 = r := by
  have h1 : List.find? (fun b => decide (b.id = r0.id)) l = some r0 :=
    find?_key (fun x => x.id) l hnd r0 h0
  rw [hid] at h1
  unfold findRequest at hfind
  have := h1.symm.trans hfind
  injection this

/-- Accepting a request keeps all balances non-negative. -/
theorem acceptRequest_nonneg (st : MState) (r : ServiceRequest) (now : Time)
    (hb : BalancesNonneg st.balances) (hwf : EscrowWF st)
    (hr : r ∈ st.requests) :
    BalancesNonneg (acceptRequest st r now).1.balances := by
  simp only [acceptRequest]
  split
  · exact hb
  case _ hold hfound =>
    split
    · exact hb
    case _ rb hrb =>
      have hple := lockedHold_price_le_pending st hwf r hr hold hfound rb hrb
      have hprice : 0 ≤ r.price := hwf.reqPrices r hr
      have hrb2 := hb r.requesterId rb hrb
      have hb1 := balancesNonneg_set st.balances r.requesterId
        { rb with pendingBalance := rb.pendingBalance - r.price } hb
        (by simpa using hrb2.1) (by simp only; linarith)
      exact balancesNonneg_upsert _ r.providerId _ _ hb1
        (fun b0 ha hp => ⟨by simp only; linarith, by simpa using hp⟩)
        (by simpa using hprice) (by norm_num)

/-- Rejecting a request keeps all balances non-negative. -/
theorem rejectRequest_nonneg (st : MState) (r : ServiceRequest) (now : Time)
    (hb : BalancesNonneg st.balances) (hwf : EscrowWF st)
    (hr : r ∈ st.requests) :
    BalancesNonneg (rejectRequest st r now).1.balances := by
  simp only [rejectRequest]
  split
  · exact hb
  case _ hold hfound =>
    split
    · exact hb
    case _ rb hrb =>
      have hple := lockedHold_price_le_pending st hwf r hr hold hfound rb hrb
      have hprice : 0 ≤ r.price := hwf.reqPrices r hr
      have hrb2 := hb r.requesterId rb hrb
      exact balancesNonneg_set st.balances r.requesterId
        { rb with
          availableBalance := rb.availableBalance + r.price,
          pendingBalance := rb.pendingBalance - r.price } hb
        (by simp only; linarith [hrb2.1]) (by simp only; linarith)

/-- `setRequest` with a non-negative replacement keeps prices
non-negative. -/
theorem reqPrices_setRequest (l : List ServiceRequest)
    (r2 : ServiceRequest) (hpr2 : 0 ≤ r2.price)
    (hp : ∀ r0 ∈ l, 0 ≤ r0.price) :
    ∀ r3 ∈ setRequest l r2, 0 ≤ r3.price := by
  intro r3 hr3
  obtain ⟨r0, hr0, he⟩ := mem_setRequest l r2 r3 hr3
  by_cases hcase : r0.id = r2.id
  · rw [if_pos hcase] at he
    exact he ▸ hpr2
  · rw [if_neg hcase] at he
    exact he ▸ hp r0 hr0

/-- `setRequest` with an id- and price-preserving replacement keeps
hold/request price matching. -/
theorem holdMatch_setRequest (l : List ServiceRequest)
    (r r2 : ServiceRequest) (hr : r ∈ l) (hid : r2.id = r.id)
    (hpr : r2.price = r.price) (h : PendingHold)
    (hm : ∀ r0 ∈ l, h.sourceId = r0.id → h.amount = r0.price) :
    ∀ r3 ∈ setRequest l r2, h.sourceId = r3.id → h.amount = r3.price := by
  intro r3 hr3 hs
  obtain ⟨r0, hr0, he⟩ := mem_setRequest l r2 r3 hr3
  by_cases hcase : r0.id = r2.id
  · rw [if_pos hcase] at he
    subst he
    rw [hpr]
    exact hm r hr (by rw [hs, hid])
  · rw [if_neg hcase] at he
    subst he
    exact hm r3 hr0 hs

/-- `setHold` with a non-negative replacement keeps amounts
non-negative. -/
theorem holdAmts_setHold (holds : List PendingHold) (h2 : PendingHold)
    (h2a : 0 ≤ h2.amount) (ha : ∀ h ∈ holds, 0 ≤ h.amount) :
    ∀ h3 ∈ setHold holds h2, 0 ≤ h3.amount := by
  intro h3 hm
  rcases mem_setHold holds h2 h3 hm with he | hmem
  · exact he ▸ h2a
  · exact ha h3 hmem

/-- `expireRequest` preserves non-negative balances and escrow
well-formedness. -/
theorem expireRequest_preserves (st : MState) (rid : Nat) (now : Time)
    (hb : BalancesNonneg st.balances) (hwf : EscrowWF st) :
    BalancesNonneg (expireRequest st rid now).1.balances ∧
    EscrowWF (expireRequest st rid now).1 := by
  simp only [expireRequest]
  split
  · exact ⟨hb, hwf⟩
  case _ r hfind =>
    have hr : r ∈ st.requests := List.mem_of_find?_eq_some hfind
    have hrid : r.id = rid := by
      have := List.find?_some hfind
      simpa using this
    split
    · exact ⟨hb, hwf⟩
    split
    case _ hnone =>
      refine ⟨hb, hwf.prices, ?_, hwf.holdAmts, ?_, ?_, hwf.holdCover⟩
      · exact reqPrices_setRequest st.requests (expiredVersion r now)
          (hwf.reqPrices r hr) hwf.reqPrices
      · intro h3 hm3
        exact holdMatch_setRequest st.requests r (expiredVersion r now) hr
          rfl rfl h3 (hwf.holdMatch h3 hm3)
      · show ((setRequest st.requests (expiredVersion r now)).map
          (fun x => x.id)).Nodup
        rw [setRequest_map_id]
        exact hwf.reqNodup
    case _ hold hfound =>
      rw [← hrid] at hfound
      split
      · exact ⟨hb, hwf⟩
      case _ rb hrb =>
        have hmemh : hold ∈ st.holds := List.mem_of_find?_eq_some hfound
        have hprop := List.find?_some hfound
        simp only [Bool.and_eq_true, decide_eq_true_iff] at hprop
        obtain ⟨⟨hu, hsid⟩, hlocked⟩ := hprop
        have hamt : hold.amount = r.price :=
          hwf.holdMatch hold hmemh r hr hsid
        have hprice : 0 ≤ r.price := hwf.reqPrices r hr
        have hple := lockedHold_price_le_pending st hwf r hr hold hfound
          rb hrb
        have hrb2 := hb r.requesterId rb hrb
        constructor
        · exact balancesNonneg_set st.balances r.requesterId
            { rb with
              availableBalance := rb.availableBalance + r.price,
              pendingBalance := rb.pendingBalance - r.price } hb
            (by simp only; linarith [hrb2.1]) (by simp only; linarith)
        · refine ⟨hwf.prices, ?_, ?_, ?_, ?_, ?_⟩
          · exact reqPrices_setRequest st.requests (expiredVersion r now)
              (hwf.reqPrices r hr) hwf.reqPrices
          · exact holdAmts_setHold st.holds
              { hold with status := HoldStatus.EXPIRED
                          releasedAt := some now }
              (by simpa using hwf.holdAmts hold hmemh) hwf.holdAmts
          · intro h3 hm3
            rcases mem_setHold st.holds
              { hold with status := HoldStatus.EXPIRED
                          releasedAt := some now } h3 hm3 with he | hmem3
            · subst he
              refine holdMatch_setRequest st.requests r
                (expiredVersion r now) hr rfl rfl _ ?_
              intro r0 hr0 hs0
              exact hwf.holdMatch hold hmemh r0 hr0 hs0
            · exact holdMatch_setRequest st.requests r
                (expiredVersion r now) hr rfl rfl h3
                (hwf.holdMatch h3 hmem3)
          · show ((setRequest st.requests (expiredVersion r now)).map
              (fun x => x.id)).Nodup
            rw [setRequest_map_id]
            exact hwf.reqNodup
          · intro u b hub
            have hub2 : (if u = r.requesterId then
                some { rb with
                  availableBalance := rb.availableBalance + r.price,
                  pendingBalance := rb.pendingBalance - r.price }
              else st.balances u) = some b := hub
            show lockedSum (setHold st.holds
              { hold with status := HoldStatus.EXPIRED
                          releasedAt := some now }) u ≤ b.pendingBalance
            by_cases hcase : u = r.requesterId
            · rw [if_pos hcase] at hub2
              injection hub2 with hub3
              subst hub3
              subst hcase
              have hdrop := lockedSum_setHold_le st.holds r.requesterId hold
                { hold with status := HoldStatus.EXPIRED
                            releasedAt := some now }
                hmemh rfl (by intro hc; cases hc) hwf.holdAmts hu hlocked
              have hcov := hwf.holdCover r.requesterId rb hrb
              simp only
              linarith
            · rw [if_neg hcase] at hub2
              have hmono := lockedSum_setHold_mono st.holds
                { hold with status := HoldStatus.EXPIRED
                            releasedAt := some now }
                (by intro hc; cases hc) hwf.holdAmts u
              have hcov := hwf.holdCover u b hub2
              linarith

/-- The sweep loop preserves non-negative balances and escrow
well-formedness. -/
theorem runExpireAll_preserves (rids : List Nat) (st : MState) (now : Time)
    (hb : BalancesNonneg st.balances) (hwf : EscrowWF st) :
    BalancesNonneg (runExpireAll st rids now).1.balances ∧
    EscrowWF (runExpireAll st rids now).1 := by
  induction rids generalizing st with
  | nil => exact ⟨hb, hwf⟩
  | cons rid rest ih =>
    unfold runExpireAll
    split
    case _ s1 u heq =>
      have h1 := expireRequest_preserves st rid now hb hwf
      rw [heq] at h1
      exact ih s1 h1.1 h1.2
    case _ s1 e heq =>
      have h1 := expireRequest_preserves st rid now hb hwf
      rw [heq] at h1
      exact h1

/-- `cancelRequest` keeps all balances non-negative. -/
theorem cancelRequest_nonneg (st : MState) (u : UserId) (rid : Nat)
    (now : Time) (hb : BalancesNonneg st.balances) (hwf : EscrowWF st) :
    BalancesNonneg (cancelRequest st u rid now).1.balances := by
  simp only [cancelRequest]
  split
  · exact hb
  case _ r hfind =>
    have hr : r ∈ st.requests := List.mem_of_find?_eq_some hfind
    have hrid : r.id = rid := by
      have := List.find?_some hfind
      simpa using this
    split
    · exact hb
    case _ hcaller =>
      rw [ne_eq, not_not] at hcaller
      split
      · exact hb
      split
      · exact hb
      case _ hold hfound =>
        rw [← hcaller, ← hrid] at hfound
        split
        · exact hb
        case _ rb hrb =>
          rw [← hcaller] at hrb
          have hple := lockedHold_price_le_pending st hwf r hr hold hfound
            rb hrb
          have hprice : 0 ≤ r.price := hwf.reqPrices r hr
          have hrb2 := hb r.requesterId rb hrb
          rw [← hcaller]
          exact balancesNonneg_set st.balances r.requesterId
            { rb with
              availableBalance := rb.availableBalance + r.price,
              pendingBalance := rb.pendingBalance - r.price } hb
            (by simp only; linarith [hrb2.1]) (by simp only; linarith)

/-- `respondToRequest` keeps all balances non-negative. -/
theorem respondToRequest_nonneg (st : MState) (p : UserId) (rid : Nat)
    (a : Bool) (now : Time)
    (hb : BalancesNonneg st.balances) (hwf : EscrowWF st) :
    BalancesNonneg (respondToRequest st p rid a now).1.balances := by
  simp only [respondToRequest]
  split
  · exact hb
  case _ r hfind =>
    have hr : r ∈ st.requests := List.mem_of_find?_eq_some hfind
    split
    · exact hb
    split
    · exact hb
    split
    · exact (expireRequest_preserves st rid now hb hwf).1
    split
    · exact acceptRequest_nonneg st r now hb hwf hr
    · exact rejectRequest_nonneg st r now hb hwf hr

/-- Non-negative rows in particular have non-negative pending. -/
theorem balancesNonneg_pendingNonneg (bals : UserId → Option UserBalance)
    (h : BalancesNonneg bals) : PendingNonneg bals :=
  fun u b hb => (h u b hb).2

/-- C1 (amended): from a committed state with non-negative balances and
well-formed escrow data (non-negative configured prices, request prices
and hold amounts, holds matching their request's price, duplicate-free
request ids, and each user's LOCKED holds summing to at most their
pendingBalance), every core operation other than cancelSession keeps
every user's availableBalance and pendingBalance non-negative, and every
operation — cancelSession included — keeps every pendingBalance
non-negative; cancelSession alone can drive the seller's availableBalance
below zero (`c1_counterexample`), as it debits the refund without a
sufficiency check. -/
theorem c1_amended (st : MState) (op : Op)
    (hb : BalancesNonneg st.balances) (hwf : EscrowWF st)
    (hd : op.durNonneg) :
    (op.isCancelSession = false →
      BalancesNonneg (applyOp st op).balances) ∧
    PendingNonneg (applyOp st op).balances := by
  cases op with
  | purchase b s d n =>
    have h := purchase_nonneg st b s d n hb hwf
    exact ⟨fun _ => h, balancesNonneg_pendingNonneg _ h⟩
  | activate sid n =>
    have h : BalancesNonneg (activateSession st sid n).1.balances := by
      rw [activateSession_balances]
      exact hb
    exact ⟨fun _ => h, balancesNonneg_pendingNonneg _ h⟩
  | pause sid u n =>
    have h : BalancesNonneg (pauseSession st sid u n).1.balances := by
      rw [pauseSession_balances]
      exact hb
    exact ⟨fun _ => h, balancesNonneg_pendingNonneg _ h⟩
  | touch sid n =>
    have h : BalancesNonneg (updateSessionActivity st sid n).1.balances := by
      rw [updateSessionActivity_balances]
      exact hb
    exact ⟨fun _ => h, balancesNonneg_pendingNonneg _ h⟩
  | cancel sid u n =>
    refine ⟨fun hf => ?_, ?_⟩
    · exact absurd hf (by simp [Op.isCancelSession])
    · exact cancelSession_pending st sid u n
        (balancesNonneg_pendingNonneg _ hb)
  | autoPause i n =>
    have h : BalancesNonneg
        (autoPauseInactiveSessions st i n).balances := by
      rw [autoPause_balances]
      exact hb
    exact ⟨fun _ => h, balancesNonneg_pendingNonneg _ h⟩
  | charge m sid s r ct d =>
    have h := charge_nonneg st m sid s r ct d hb hwf hd
    exact ⟨fun _ => h, balancesNonneg_pendingNonneg _ h⟩
  | createReq u dto n =>
    have h := createReq_nonneg st u dto n hb hwf
    exact ⟨fun _ => h, balancesNonneg_pendingNonneg _ h⟩
  | respond p rid a n =>
    have h := respondToRequest_nonneg st p rid a n hb hwf
    exact ⟨fun _ => h, balancesNonneg_pendingNonneg _ h⟩
  | cancelReq u rid n =>
    have h := cancelRequest_nonneg st u rid n hb hwf
    exact ⟨fun _ => h, balancesNonneg_pendingNonneg _ h⟩
  | expire rid n =>
    have h := (expireRequest_preserves st rid n hb hwf).1
    exact ⟨fun _ => h, balancesNonneg_pendingNonneg _ h⟩
  | autoExpire n =>
    have h := (runExpireAll_preserves
      ((staleFilter n st.requests).map (fun r => r.id)) st n hb hwf).1
    exact ⟨fun _ => h, balancesNonneg_pendingNonneg _ h⟩

/-- Witness: the amended C1 theorem applied to the empty store and one
expire call. -/
theorem c1_amended_witness :
    ((Op.expire 1 0).isCancelSession = false →
      BalancesNonneg (applyOp emptyState (Op.expire 1 0)).balances) ∧
    PendingNonneg (applyOp emptyState (Op.expire 1 0)).balances :=
  c1_amended emptyState (Op.expire 1 0)
    (fun _ _ h => Option.noConfusion h)
    { prices := fun _ _ h => Option.noConfusion h
      reqPrices := fun r h => absurd h (List.not_mem_nil r)
      holdAmts := fun h hm => absurd hm (List.not_mem_nil h)
      holdMatch := fun h hm => absurd hm (List.not_mem_nil h)
      reqNodup := List.nodup_nil
      holdCover := fun _ _ h => Option.noConfusion h }
    True.intro

/-- The auto-pause write loop acts pointwise: folding the `setSession`
writes over the list equals mapping each entry through the per-entry
replacements. -/
theorem autoPause_foldl_map (now : Time) :
    ∀ (inactive l : List ChatSession),
    List.foldl (fun ss u => setSession ss (autoPauseStep now u)) l
        inactive =
      l.map (fun u => List.foldl (autoPauseRepl now) u inactive) := by
  intro inactive
  induction inactive with
  | nil =>
    intro l
    simp
  | cons a rest ih =>
    intro l
    rw [List.foldl_cons, ih (setSession l (autoPauseStep now a))]
    unfold setSession
    rw [List.map_map]
    refine List.map_congr_left ?_
    intro u _
    rw [List.foldl_cons]
    rfl

/-- The per-entry auto-pause replacements never change a session's id. -/
theorem autoPause_foldl_id (now : Time) (inactive : List ChatSession) :
    ∀ (u : ChatSession),
    (List.foldl (autoPauseRepl now) u inactive).id = u.id := by
  induction inactive with
  | nil =>
    intro u
    rfl
  | cons a rest ih =>
    intro u
    rw [List.foldl_cons, ih (autoPauseRepl now u a)]
    unfold autoPauseRepl
    split
    case _ h => exact h.symm
    · rfl

/-- Replacements for sessions with other ids leave an entry untouched. -/
theorem autoPause_foldl_skip (now : Time) (u : ChatSession) :
    ∀ (l : List ChatSession), (∀ b ∈ l, ¬ u.id = b.id) →
    List.foldl (autoPauseRepl now) u l = u := by
  intro l
  induction l with
  | nil =>
    intro _
    rfl
  | cons a rest ih =>
    intro h
    rw [List.foldl_cons]
    have ha : autoPauseRepl now u a = u := by
      unfold autoPauseRepl
      rw [if_neg (h a (List.mem_cons_self a rest))]
    rw [ha]
    exact ih (fun b hb => h b (List.mem_cons_of_mem a hb))

/-- Under duplicate-free ids, the replacements for the selected sessions
turn a selected entry into exactly its auto-pause update. -/
theorem autoPause_foldl_eq (now : Time) (s : ChatSession) :
    ∀ (inactive : List ChatSession),
    (inactive.map (fun x => x.id)).Nodup → s ∈ inactive →
    List.foldl (autoPauseRepl now) s inactive = autoPauseStep now s := by
  intro inactive
  induction inactive with
  | nil =>
    intro _ hm
    cases hm
  | cons a rest ih =>
    intro hnd hm
    rw [List.map_cons, List.nodup_cons] at hnd
    rw [List.foldl_cons]
    rcases List.mem_cons.mp hm with he | hm2
    · subst he
      have hs : autoPauseRepl now s s = autoPauseStep now s := by
        unfold autoPauseRepl
        rw [if_pos rfl]
      rw [hs]
      refine autoPause_foldl_skip now (autoPauseStep now s) rest ?_
      intro b hb hc
      exact hnd.1 (hc ▸ List.mem_map_of_mem (fun x => x.id) hb)
    · have hne : ¬ s.id = a.id := by
        intro hc
        exact hnd.1 (hc ▸ List.mem_map_of_mem (fun x => x.id) hm2)
      have hs : autoPauseRepl now s a = s := by
        unfold autoPauseRepl
        rw [if_neg hne]
      rw [hs]
      exact ih hnd.2 hm2

/-- `autoPauseInactiveSessions` stores the raw, uncapped elapsed minutes
for every active, unpaused session whose `lastActiveAt` lies before the
cutoff (duplicate-free session ids). -/
theorem autoPause_uncapped (st : MState) (i : ℚ) (now : Time)
    (hnd : (st.sessions.map (fun x => x.id)).Nodup)
    (sid : Nat) (s : ChatSession)
    (hfind : findSession st.sessions sid = some s)
    (hact : s.isActive = true) (hp : s.isPaused = false)
    (t : Time) (ht : s.lastActiveAt = some t)
    (hcut : t < now - i * 60 * 1000) :
    findSession (autoPauseInactiveSessions st i now).sessions sid =
      some (autoPauseStep now s) := by
  have hs : s ∈ st.sessions := List.mem_of_find?_eq_some hfind
  have hf : (fun u => u.isActive && !u.isPaused &&
      (match u.lastActiveAt with
       | some t0 => decide (t0 < now - i * 60 * 1000)
       | none => false)) s = true := by
    simp only [hact, hp, ht]
    simpa using hcut
  have hmain : (autoPauseInactiveSessions st i now).sessions =
      List.foldl (fun ss u => setSession ss (autoPauseStep now u))
        st.sessions
        (st.sessions.filter (fun u => u.isActive && !u.isPaused &&
          (match u.lastActiveAt with
           | some t0 => decide (t0 < now - i * 60 * 1000)
           | none => false))) := rfl
  rw [hmain, autoPause_foldl_map]
  unfold findSession
  rw [find?_map_pres st.sessions _ (fun x => decide (x.id = sid))
    (fun a _ => by simp only [autoPause_foldl_id])]
  unfold findSession at hfind
  rw [hfind, Option.map_some']
  have hmem : s ∈ st.sessions.filter (fun u => u.isActive && !u.isPaused &&
      (match u.lastActiveAt with
       | some t0 => decide (t0 < now - i * 60 * 1000)
       | none => false)) := List.mem_filter.mpr ⟨hs, hf⟩
  have hsub : ((st.sessions.filter (fun u => u.isActive && !u.isPaused &&
      (match u.lastActiveAt with
       | some t0 => decide (t0 < now - i * 60 * 1000)
       | none => false))).map
        (fun x : ChatSession => x.id)).Sublist
      (st.sessions.map (fun x : ChatSession => x.id)) :=
    List.Sublist.map (fun x : ChatSession => x.id)
      (List.filter_sublist st.sessions)
  have hnd2 : ((st.sessions.filter (fun u => u.isActive && !u.isPaused &&
      (match u.lastActiveAt with
       | some t0 => decide (t0 < now - i * 60 * 1000)
       | none => false))).map (fun x => x.id)).Nodup :=
    hnd.sublist hsub
  rw [autoPause_foldl_eq now s _ hnd2 hmem]

/-- C9 amended: the expiry-finalization path (`updateSessionActivity` /
`getActiveSession`) caps the added minutes and preserves
`usedMinutes ≤ durationMinutes`; `pauseSession` stores the uncapped
`usedMinutes + max 0 (elapsed)` (which can exceed the duration),
`autoPauseInactiveSessions` stores the uncapped
`usedMinutes + (now - lastActive)/60000` for every stale running
session, and `cancelSession` stores the uncapped `cancelTotalUsed`. -/
theorem c9_amended (st : MState) (sid : Nat) (userId : UserId) (now : Time)
    (s : ChatSession)
    (hfind : findSession st.sessions sid = some s) :
    (finalizeExpired s).usedMinutes ≤ s.durationMinutes ∧
    (s.isPaused = false → (s.buyerId = userId ∨ s.sellerId = userId) →
      (pauseSession st sid userId now).2 =
        .ok { s with
              isPaused := true, pausedAt := some now,
              usedMinutes := s.usedMinutes +
                max 0 ((now - s.lastActive) / 60000) }) ∧
    (∀ i : ℚ, (st.sessions.map (fun x => x.id)).Nodup →
      s.isActive = true → s.isPaused = false →
      ∀ t, s.lastActiveAt = some t → t < now - i * 60 * 1000 →
      findSession (autoPauseInactiveSessions st i now).sessions sid =
        some { s with
               isPaused := true, pausedAt := some now,
               usedMinutes := s.usedMinutes +
                 (now - s.lastActive) / 60000 }) ∧
    (s.isActive = true → (s.buyerId = userId ∨ s.sellerId = userId) →
      cancelRefund s now = 0 →
      (cancelSession st sid userId now).1.sessions =
        setSession st.sessions { s with
          isActive := false, isCancelled := true,
          usedMinutes := cancelTotalUsed s now, isPaused := true,
          pausedAt := some now }) := by
  refine ⟨?_, fun hp hpart => ?_, fun i hnd hact hp t ht hcut => ?_,
    fun hact hpart hz => ?_⟩
  · unfold finalizeExpired
    simp only
    have : min (s.durationMinutes - s.usedMinutes)
        ((s.endTime - s.lastActive) / 60000) ≤
        s.durationMinutes - s.usedMinutes := min_le_left _ _
    linarith
  · have hpartF : ¬ (s.buyerId ≠ userId ∧ s.sellerId ≠ userId) := by
      rcases hpart with h | h <;> simp [h]
    simp [pauseSession, hfind, hpartF, hp]
  · exact autoPause_uncapped st i now hnd sid s hfind hact hp t ht hcut
  · have hpartF : ¬ (s.buyerId ≠ userId ∧ s.sellerId ≠ userId) := by
      rcases hpart with h | h <;> simp [h]
    simp [cancelSession, hfind, hpartF, hact, hz]

/-- Witness for C9 amended: pausing the running 10-minute session at
t = 1200000 stores the uncapped 20 minutes, and the 5-minute-inactivity
auto-pause sweep at the same clock stores those same uncapped 20 minutes
(20 > 10, the purchased duration). -/
theorem c9_amended_witness :
    ((pauseSession touchState 0 1 1200000).2 =
      .ok { runningSession with
            isPaused := true, pausedAt := some 1200000,
            usedMinutes := runningSession.usedMinutes +
              max 0 ((1200000 - runningSession.lastActive) / 60000) }) ∧
    (findSession
        (autoPauseInactiveSessions touchState 5 1200000).sessions 0 =
      some { runningSession with
             isPaused := true, pausedAt := some 1200000,
             usedMinutes := runningSession.usedMinutes +
               (1200000 - runningSession.lastActive) / 60000 }) ∧
    runningSession.durationMinutes <
      runningSession.usedMinutes +
        (1200000 - runningSession.lastActive) / 60000 := by
  have h := c9_amended touchState 0 1 1200000 runningSession rfl
  refine ⟨h.2.1 rfl (Or.inl rfl),
    h.2.2.1 5 (by simp [touchState, emptyState, runningSession])
      rfl rfl 0 rfl (by norm_num), ?_⟩
  norm_num [runningSession, ChatSession.lastActive]

end Tinsel
